import Mathlib

/-!
Sourcetrail: project controller and delta planner.

A shallow embedding of `src/lib/project/Project.cpp` (`Project::refresh`, `Project::load`,
`Project::requestIndex`, `Project::buildIndex`).  Collaborators whose code is not part of the
translated sources (persistent storage, file system, dialogs, source groups, settings) appear as
explicit state or as oracle fields of a record; every call that has an observable effect is
recorded in an event log carried by the project state.
-/

namespace Sourcetrail

/-! ## Data model -/

/-- `FilePath`: a canonical path string, compared by its text. -/
abbrev FilePath := String

/-- `TimePoint`: the time stamp type of `FileInfo::lastWriteTime`, a linearly ordered tick count. -/
abbrev TimePoint := Nat

/-- `FileInfo`: a path together with the write time recorded for it. -/
structure FileInfo where
  path : FilePath
  lastWriteTime : TimePoint

/-- The elements of a `std::set<FilePath>` in iteration order (ascending); this is also
`utility::toVector`. -/
def toVector (s : Finset FilePath) : List FilePath :=
  s.sort (· ≤ ·)

/-- Modelled from the spec: `utility::append(a, b)` for two `std::set`s is declared in
`utility/utility.h`, which is not among the translated sources; the spec writes its uses as
unions ("`filesToClean := changed ∪ getReferencing(changed)`", "union into `filesToIndex`"). -/
def utility.append (a b : Finset FilePath) : Finset FilePath :=
  a ∪ b

/-- The file system as seen by the planner: `FilePath::exists` and the write time
reported by `FileSystem::getFileInfoForPath`. -/
structure FileSystem where
  pathExists : FilePath → Bool
  lastWriteTime : FilePath → TimePoint

/-- `FileSystem::getFileInfoForPath`. -/
def FileSystem.getFileInfoForPath (fs : FileSystem) (path : FilePath) : FileInfo :=
  { path := path, lastWriteTime := fs.lastWriteTime path }

/-- The part of `PersistentStorage` that `Project` consults: the persisted file records, the
reference graph queries, the settings snapshot and the two status queries. -/
structure PersistentStorage where
  infoOnAllFiles : List FileInfo
  referencing : Finset FilePath → Finset FilePath
  referenced : Finset FilePath → Finset FilePath
  projectSettingsText : String
  isEmpty : Bool
  isIncompatible : Bool

/-! ## Delta planner (`Project::requestIndex`, lines 285-353) -/

/-- Body of the loop over `m_storage->getInfoOnAllFiles()` (lines 291-312); the accumulator is
`(unchangedFilePaths, changedFilePaths)`. -/
def classifyFileInfo (fs : FileSystem) (acc : Finset FilePath × Finset FilePath)
    (info : FileInfo) : Finset FilePath × Finset FilePath :=
  if fs.pathExists info.path then
    let newFileInfo := fs.getFileInfoForPath info.path
    if newFileInfo.lastWriteTime > info.lastWriteTime then
      (acc.1, insert info.path acc.2)
    else
      (insert info.path acc.1, acc.2)
  else
    (acc.1, insert info.path acc.2)

/-- Lines 289-312: the pair `(unchangedFilePaths, changedFilePaths)` after the loop. -/
def partitionFileInfos (fs : FileSystem) (infos : List FileInfo) :
    Finset FilePath × Finset FilePath :=
  infos.foldl (classifyFileInfo fs) (∅, ∅)

/-- The loops `for (path : paths) staticSourceFiles.erase(path);` (lines 321-324, 339-342). -/
def eraseEach (staticSourceFiles paths : Finset FilePath) : Finset FilePath :=
  (toVector paths).foldl (fun acc path => acc.erase path) staticSourceFiles

/-- The loop over `dynamicReferencedFilePaths` (lines 329-337). -/
def insertUnreferenced (filesToClean staticReferencedFilePaths staticSourceFiles
    dynamicReferencedFilePaths : Finset FilePath) : Finset FilePath :=
  (toVector dynamicReferencedFilePaths).foldl
    (fun acc path =>
      if path ∉ staticReferencedFilePaths ∧ path ∉ staticSourceFiles then insert path acc
      else acc)
    filesToClean

/-- The sets computed inside `if (!needsFullRefresh)`. -/
structure DeltaAnalysis where
  unchangedFilePaths : Finset FilePath
  changedFilePaths : Finset FilePath
  filesToClean : Finset FilePath
  filesToAdd : Finset FilePath

/-- Lines 289-343 of `Project::requestIndex`. -/
def incrementalAnalysis (storage : PersistentStorage) (fs : FileSystem)
    (allSourceFilePaths : Finset FilePath) : DeltaAnalysis :=
  let parts := partitionFileInfos fs storage.infoOnAllFiles
  let unchangedFilePaths := parts.1
  let changedFilePaths := parts.2
  let filesToClean := changedFilePaths
  let filesToClean := utility.append filesToClean (storage.referencing changedFilePaths)
  let staticSourceFiles := eraseEach allSourceFilePaths changedFilePaths
  let staticReferencedFilePaths := storage.referenced staticSourceFiles
  let dynamicReferencedFilePaths := storage.referenced changedFilePaths
  let filesToClean := insertUnreferenced filesToClean staticReferencedFilePaths
    staticSourceFiles dynamicReferencedFilePaths
  let staticSourceFiles := eraseEach staticSourceFiles unchangedFilePaths
  { unchangedFilePaths := unchangedFilePaths
    changedFilePaths := changedFilePaths
    filesToClean := filesToClean
    filesToAdd := staticSourceFiles }

/-- Lines 346-353: the source paths that are neither cleaned nor added. -/
def staticSourceFilePaths (allSourceFilePaths filesToClean filesToAdd : Finset FilePath) :
    Finset FilePath :=
  (toVector allSourceFilePaths).foldl
    (fun acc path =>
      if path ∉ filesToClean ∧ path ∉ filesToAdd then insert path acc else acc)
    ∅

/-! ## Collaborators of the project controller -/

/-- `LanguageType`, as far as `Project.cpp` distinguishes it. -/
inductive LanguageType where
  | LANGUAGE_UNKNOWN
  | LANGUAGE_C
  | LANGUAGE_CPP
  | LANGUAGE_JAVA
  deriving DecidableEq, Repr

/-- `IndexerCommand`: the source file to parse, its language and the two flags that
`Project::buildIndex` sets on every command.  The class is declared in
`data/indexer/IndexerCommand.h`, which is not among the translated sources; the fields are those
the spec lists for it (`sourcePath`, `language`, `cancelOnFatalErrors`, `preprocessorOnly`). -/
structure IndexerCommand where
  sourcePath : FilePath
  language : LanguageType
  cancelOnFatalErrors : Bool
  preprocessorOnly : Bool
  deriving DecidableEq, Repr

/-- Modelled from the spec: `IndexerCommand::setCancelOnFatalErrors` is not among the translated
sources; the spec gives the command a field `cancelOnFatalErrors: bool`, which the setter
assigns. -/
def IndexerCommand.setCancelOnFatalErrors (command : IndexerCommand) (value : Bool) :
    IndexerCommand :=
  { command with cancelOnFatalErrors := value }

/-- Modelled from the spec: `IndexerCommand::setPreprocessorOnly` is not among the translated
sources; the spec gives the command a field `preprocessorOnly: bool`, which the setter
assigns. -/
def IndexerCommand.setPreprocessorOnly (command : IndexerCommand) (value : Bool) :
    IndexerCommand :=
  { command with preprocessorOnly := value }

/-- A `SourceGroup` as `Project` uses it; each field is the answer the group gives to the call
of the same name (`allSourceFilePaths` after `fetchAllSourceFilePaths()`, `sourceFilePathsToIndex`
after `fetchSourceFilePathsToIndex(staticSourceFilePaths)`). -/
structure SourceGroup where
  language : LanguageType
  prepareRefresh : Bool
  prepareIndexing : Bool
  allSourceFilePaths : Finset FilePath
  sourceFilePathsToIndex : Finset FilePath → Finset FilePath
  indexerCommands : Bool → List IndexerCommand

/-- `DialogView::IndexingOptions`. -/
structure IndexingOptions where
  startIndexing : Bool
  fullRefreshVisible : Bool
  fullRefresh : Bool
  preprocessorOnlyVisible : Bool
  preprocessorOnly : Bool
  deriving DecidableEq, Repr

/-- `Application`, its dialog view and `ApplicationSettings`, as oracles: what the user answers
and what is configured.  `shuffle` is `IndexerCommandList::shuffle`, which reorders the queued
commands. -/
structure Application where
  hasGUI : Bool
  isInTrial : Bool
  confirm : String → List String → Int
  startIndexingDialog : Nat → Nat → Nat → IndexingOptions → IndexingOptions
  cancelIndexingOnFatalErrors : Bool
  indexerThreadCount : Int
  idealThreadCount : Int
  shuffle : List IndexerCommand → List IndexerCommand
  shuffle_perm : ∀ commands, (shuffle commands).Perm commands

/-- `ProjectSettings` and `SourceGroupFactory`: the result of `reload()`, of `needMigration()`,
what `migrate()` does to the text of the settings file, the path of that file, and the source
groups created from the settings once they are reloaded. -/
structure ProjectSettings where
  filePath : FilePath
  reload : Bool
  needMigration : Bool
  migrate : String → String
  sourceGroups : List SourceGroup

/-- `ProjectStateType`. -/
inductive ProjectStateType where
  | PROJECT_STATE_NOT_LOADED
  | PROJECT_STATE_EMPTY
  | PROJECT_STATE_LOADED
  | PROJECT_STATE_OUTDATED
  | PROJECT_STATE_OUTVERSIONED
  | PROJECT_STATE_SETTINGS_UPDATED
  | PROJECT_STATE_NEEDS_MIGRATION
  deriving DecidableEq, Repr

open ProjectStateType LanguageType

/-- `SqliteStorage::StorageModeType`. -/
inductive StorageModeType where
  | STORAGE_MODE_UNKNOWN
  | STORAGE_MODE_READ
  | STORAGE_MODE_WRITE
  deriving DecidableEq, Repr

/-! ## Task trees -/

/-- `Task::TaskState`. -/
inductive TaskState where
  | STATE_RUNNING
  | STATE_SUCCESS
  | STATE_FAILURE
  | STATE_CANCELED
  deriving DecidableEq, Repr

/-- `TaskDecoratorRepeat::ConditionType`; `Project.cpp` builds every repeat decorator with
`CONDITION_WHILE_SUCCESS`. -/
inductive RepeatCondition where
  | CONDITION_WHILE_SUCCESS
  deriving DecidableEq, Repr

/-- `TaskReturnSuccessWhile<T>::ConditionType`. -/
inductive SuccessCondition where
  | CONDITION_EQUALS
  | CONDITION_GREATER_THAN
  deriving DecidableEq, Repr

/-- The task tree that `Project::buildIndex` assembles, as data: one constructor per task class,
children in the order in which they are added. -/
inductive Task where
  | TaskCleanStorage (filePaths : List FilePath)
  | TaskSetValue (key : String) (value : Int)
  | TaskParseWrapper (task : Task)
  | TaskGroupSequence (children : List Task)
  | TaskGroupParallel (children : List Task)
  | TaskGroupSelector (children : List Task)
  | TaskDecoratorRepeat (condition : RepeatCondition) (exitStatus : TaskState) (child : Task)
  | TaskReturnSuccessWhile (key : String) (condition : SuccessCondition) (value : Int)
  | TaskBuildIndex (indexerCommandList : List IndexerCommand)
  | TaskMergeStorages
  | TaskInjectStorage
  | TaskShowStatusDialog (title message : String)
  | TaskFinishParsing

/-- Whether a task tree has a `TaskCleanStorage` node anywhere. -/
def Task.containsCleanStorage : Task → Bool
  | .TaskCleanStorage _ => true
  | .TaskSetValue _ _ => false
  | .TaskParseWrapper task => task.containsCleanStorage
  | .TaskGroupSequence children => anyChild children
  | .TaskGroupParallel children => anyChild children
  | .TaskGroupSelector children => anyChild children
  | .TaskDecoratorRepeat _ _ child => child.containsCleanStorage
  | .TaskReturnSuccessWhile _ _ _ => false
  | .TaskBuildIndex _ => false
  | .TaskMergeStorages => false
  | .TaskInjectStorage => false
  | .TaskShowStatusDialog _ _ => false
  | .TaskFinishParsing => false
where
  /-- Whether one of the trees of a list has a `TaskCleanStorage` node. -/
  anyChild : List Task → Bool
    | [] => false
    | child :: children => child.containsCleanStorage || anyChild children

/-! ## Observable effects -/

/-- The calls of `Project` that act on a collaborator, in the order in which they are made. -/
inductive Event where
  | dialogConfirm (message : String) (options : List String)
  | showUnknownProgressDialog (title message : String)
  | hideUnknownProgressDialog
  | startIndexingDialog (cleanFileCount indexFileCount totalFileCount : Nat)
      (options : IndexingOptions)
  | messageDispatchWhenLicenseValidRefresh
  | messageStatus (status : String) (isError showLoader : Bool)
  | messageClearErrorCount
  | messageFinishedParsing
  | messageRefresh
  | settingsMigrate
  | settingsReload
  | setDelimiter (language : LanguageType)
  | fetchSourceFilePathsToIndex (staticSourceFilePaths : Finset FilePath)
  | getIndexerCommands (fullRefresh : Bool)
  | storageClear
  | storageSetProjectSettingsText (text : String)
  | storageSetup
  | storageSetMode (mode : StorageModeType)
  | storageBuildCaches
  | proxySetSubject (subject : Bool)
  | taskDispatch (task : Task)

/-- Is the event a call of `PersistentStorage::clear`? -/
def Event.isStorageClear : Event → Bool
  | .storageClear => true
  | _ => false

/-- Is the event a call of `PersistentStorage::setProjectSettingsText`? -/
def Event.isSetProjectSettingsText : Event → Bool
  | .storageSetProjectSettingsText _ => true
  | _ => false

/-- Is the event a call of `Task::dispatch`? -/
def Event.isTaskDispatch : Event → Bool
  | .taskDispatch _ => true
  | _ => false

/-- Is the event a call of `SourceGroup::getIndexerCommands`? -/
def Event.isGetIndexerCommands : Event → Bool
  | .getIndexerCommands _ => true
  | _ => false

/-- The state of a `Project` together with the state of what it acts upon: the members
`m_state`, `m_storage`, `m_sourceGroups`, whether the subject of `m_storageAccessProxy` is set
(`true`) or null (`false`), the text of the project settings file on disk as
`TextAccess::createFromFile(getProjectSettingsFilePath())->getText()` yields it, and the log of
effects so far. -/
structure Project where
  m_state : ProjectStateType
  m_storage : PersistentStorage
  m_sourceGroups : List SourceGroup
  proxySubject : Bool
  settingsFileText : String
  log : List Event

/-- Append one effect to the log. -/
def Project.record (project : Project) (event : Event) : Project :=
  { project with log := project.log ++ [event] }

/-- Append several effects to the log. -/
def Project.recordAll (project : Project) (events : List Event) : Project :=
  { project with log := project.log ++ events }

/-- Modelled from the spec: `PersistentStorage::clear` is not among the translated sources; the
spec lists it with the effect "Clears database": no file records, no references and no settings
snapshot remain. -/
def PersistentStorage.clear (_storage : PersistentStorage) : PersistentStorage :=
  { infoOnAllFiles := []
    referencing := fun _ => ∅
    referenced := fun _ => ∅
    projectSettingsText := ""
    isEmpty := true
    isIncompatible := false }

/-- `PersistentStorage::setProjectSettingsText`. -/
def PersistentStorage.setProjectSettingsText (storage : PersistentStorage) (text : String) :
    PersistentStorage :=
  { storage with projectSettingsText := text }

/-! ## `Project::requestIndex` -/

/-- Lines 274-283: the union of the source paths of all groups, or `none` when a group fails
`prepareIndexing()` (the `return false` of line 279). -/
def gatherAllSourceFilePaths :
    List SourceGroup → Finset FilePath → Option (Finset FilePath)
  | [], allSourceFilePaths => some allSourceFilePaths
  | sourceGroup :: rest, allSourceFilePaths =>
    if !sourceGroup.prepareIndexing then none
    else gatherAllSourceFilePaths rest
      (utility.append allSourceFilePaths sourceGroup.allSourceFilePaths)

/-- Lines 355-360: every group is asked which of `staticSourceFilePaths` to index; the answers
are united. -/
def fetchFilesToIndex (sourceGroups : List SourceGroup)
    (staticSourceFilePaths : Finset FilePath) : Finset FilePath :=
  sourceGroups.foldl
    (fun filesToIndex sourceGroup =>
      utility.append filesToIndex (sourceGroup.sourceFilePathsToIndex staticSourceFilePaths))
    ∅

/-- The locals of `Project::requestIndex` at line 361, before the full-refresh override. -/
structure IndexPlan where
  filesToClean : Finset FilePath
  filesToAdd : Finset FilePath
  staticSourceFilePaths : Finset FilePath
  filesToIndex : Finset FilePath

/-- Lines 285-360 of `Project::requestIndex`. -/
def planIndex (storage : PersistentStorage) (fs : FileSystem) (sourceGroups : List SourceGroup)
    (allSourceFilePaths : Finset FilePath) (needsFullRefresh : Bool) : IndexPlan :=
  let filesToClean : Finset FilePath :=
    if !needsFullRefresh then (incrementalAnalysis storage fs allSourceFilePaths).filesToClean
    else ∅
  let filesToAdd : Finset FilePath :=
    if !needsFullRefresh then (incrementalAnalysis storage fs allSourceFilePaths).filesToAdd
    else ∅
  let staticPaths := staticSourceFilePaths allSourceFilePaths filesToClean filesToAdd
  { filesToClean := filesToClean
    filesToAdd := filesToAdd
    staticSourceFilePaths := staticPaths
    filesToIndex := fetchFilesToIndex sourceGroups staticPaths }

/-- Lines 363-371. -/
def hasCXXSourceGroup (sourceGroups : List SourceGroup) : Bool :=
  sourceGroups.any (fun sourceGroup =>
    sourceGroup.language == LANGUAGE_C || sourceGroup.language == LANGUAGE_CPP)

/-- The locals of `Project::requestIndex` at line 404, after the full-refresh override. -/
structure IndexRequest where
  allSourceFilePaths : Finset FilePath
  filesToClean : Finset FilePath
  filesToIndex : Finset FilePath
  fullRefresh : Bool
  preprocessorOnly : Bool

/-- Lines 399-403: the full-refresh override. -/
def applyFullRefresh (allSourceFilePaths : Finset FilePath) (plan : IndexPlan)
    (fullRefresh preprocessorOnly : Bool) : IndexRequest :=
  { allSourceFilePaths := allSourceFilePaths
    filesToClean := if fullRefresh then ∅ else plan.filesToClean
    filesToIndex := if fullRefresh then allSourceFilePaths else plan.filesToIndex
    fullRefresh := fullRefresh
    preprocessorOnly := preprocessorOnly }

/-- Lines 274-403 of `Project::requestIndex`: the project with the effects made so far, and the
request that reaches line 405, or `none` when the function has returned `false` before (a group
failed `prepareIndexing()`, or the indexing dialog was not confirmed). -/
def prepareIndexRequest (app : Application) (fs : FileSystem) (project : Project)
    (forceRefresh needsFullRefresh : Bool) : Project × Option IndexRequest :=
  match gatherAllSourceFilePaths project.m_sourceGroups ∅ with
  | none => (project, none)
  | some allSourceFilePaths =>
    let plan := planIndex project.m_storage fs project.m_sourceGroups allSourceFilePaths
      needsFullRefresh
    let project := project.recordAll
      (project.m_sourceGroups.map
        (fun _ => Event.fetchSourceFilePathsToIndex plan.staticSourceFilePaths))
    let fullRefresh := forceRefresh || needsFullRefresh
    let preprocessorOnly := false
    if app.hasGUI then
      let options : IndexingOptions :=
        { startIndexing := false
          fullRefreshVisible := !needsFullRefresh
          fullRefresh := forceRefresh
          preprocessorOnlyVisible := hasCXXSourceGroup project.m_sourceGroups
          preprocessorOnly := false }
      let project := project.record Event.hideUnknownProgressDialog
      let project := project.record
        (Event.startIndexingDialog plan.filesToClean.card plan.filesToIndex.card
          allSourceFilePaths.card options)
      let options := app.startIndexingDialog plan.filesToClean.card plan.filesToIndex.card
        allSourceFilePaths.card options
      if !options.startIndexing then (project, none)
      else
        (project, some (applyFullRefresh allSourceFilePaths plan
          (options.fullRefresh || needsFullRefresh) options.preprocessorOnly))
    else
      (project, some (applyFullRefresh allSourceFilePaths plan fullRefresh preprocessorOnly))

/-! ## `Project::buildIndex` -/

/-- Lines 440-452: the commands of every group, in group order, each with the two flags set. -/
def collectIndexerCommands (sourceGroups : List SourceGroup)
    (fullRefresh cancelIndexingOnFatalErrors preprocessorOnly : Bool) : List IndexerCommand :=
  sourceGroups.foldl
    (fun indexerCommandList sourceGroup =>
      indexerCommandList ++ (sourceGroup.indexerCommands fullRefresh).map
        (fun command =>
          (command.setCancelOnFatalErrors cancelIndexingOnFatalErrors).setPreprocessorOnly
            preprocessorOnly))
    []

/-- Lines 456-464: the number of indexer threads. -/
def indexerThreadCount (app : Application) : Int :=
  let indexerThreadCount := app.indexerThreadCount
  if indexerThreadCount ≤ 0 then
    let indexerThreadCount := app.idealThreadCount
    if indexerThreadCount ≤ 0 then 4 else indexerThreadCount
  else indexerThreadCount

/-- `TaskDecoratorRepeat(CONDITION_WHILE_SUCCESS, STATE_SUCCESS)->addChildTask(child)`. -/
def repeatWhileSuccess (child : Task) : Task :=
  Task.TaskDecoratorRepeat RepeatCondition.CONDITION_WHILE_SUCCESS TaskState.STATE_SUCCESS child

/-- Lines 496-509: the task that merges the intermediate storages. -/
def mergeTask : Task :=
  Task.TaskGroupSequence
    [ repeatWhileSuccess
        (Task.TaskReturnSuccessWhile "indexer_count" SuccessCondition.CONDITION_EQUALS 0),
      repeatWhileSuccess
        (Task.TaskGroupSelector
          [ Task.TaskMergeStorages,
            Task.TaskReturnSuccessWhile "indexer_count"
              SuccessCondition.CONDITION_GREATER_THAN 0 ]) ]

/-- Lines 511-529: the task that injects the intermediate storages into the persistent
storage. -/
def injectTask : Task :=
  Task.TaskGroupSequence
    [ repeatWhileSuccess
        (Task.TaskReturnSuccessWhile "indexer_count" SuccessCondition.CONDITION_EQUALS 0),
      repeatWhileSuccess
        (Task.TaskGroupSequence
          [ Task.TaskReturnSuccessWhile "indexer_count"
              SuccessCondition.CONDITION_GREATER_THAN 0,
            Task.TaskGroupSelector
              [ Task.TaskInjectStorage,
                Task.TaskReturnSuccessWhile "indexer_count"
                  SuccessCondition.CONDITION_GREATER_THAN 0 ] ]) ]

/-- The loop of line 487,
`for (int i = 0; i < indexerThreadCount && size_t(i) < indexerCommandList->size(); i++)`, which
adds one `worker` per iteration to `children`.  The first number bounds the iterations that are
still run, the second is `i`. -/
def addWorkerTasks (threadCount : Int) (size : Nat) (worker : Task) :
    Nat → Nat → List Task → List Task
  | 0, _, children => children
  | fuel + 1, i, children =>
    if (i : Int) < threadCount ∧ i < size then
      addWorkerTasks threadCount size worker fuel (i + 1) (children ++ [worker])
    else children

/-- Lines 483-529: the parallel group under the parse wrapper.  The loop of line 487 leaves
after at most `indexerCommandList->size()` iterations, which is the bound handed to
`addWorkerTasks`. -/
def parallelIndexingTask (threadCount : Int) (indexerCommandList : List IndexerCommand) : Task :=
  Task.TaskGroupParallel
    (addWorkerTasks threadCount indexerCommandList.length
        (repeatWhileSuccess (Task.TaskBuildIndex indexerCommandList))
        indexerCommandList.length 0 []
      ++ [mergeTask, injectTask])

/-- Lines 454-542: the tasks added when there is at least one indexer command. -/
def indexingTasks (app : Application) (indexerCommandList : List IndexerCommand) : List Task :=
  let threadCount := indexerThreadCount app
  let indexerCommandList :=
    if threadCount > 1 then app.shuffle indexerCommandList else indexerCommandList
  [ Task.TaskSetValue "source_file_count" (indexerCommandList.length : Int),
    Task.TaskSetValue "indexed_source_file_count" 0,
    Task.TaskSetValue "indexer_count" 0,
    Task.TaskParseWrapper (parallelIndexingTask threadCount indexerCommandList),
    Task.TaskShowStatusDialog "Finish Indexing" "Saving\nRemaining Data",
    repeatWhileSuccess Task.TaskInjectStorage ]

/-- Lines 429-544: the root sequence that is dispatched. -/
def buildTaskTree (app : Application) (filesToClean : Finset FilePath)
    (indexerCommandList : List IndexerCommand) : Task :=
  let tasks : List Task := []
  let tasks :=
    if filesToClean.card ≠ 0 then tasks ++ [Task.TaskCleanStorage (toVector filesToClean)]
    else tasks
  let tasks :=
    if indexerCommandList.length > 0 then tasks ++ indexingTasks app indexerCommandList
    else tasks
  Task.TaskGroupSequence (tasks ++ [Task.TaskFinishParsing])

/-- `Project::buildIndex` (lines 418-547). -/
def buildIndex (app : Application) (project : Project) (filesToClean : Finset FilePath)
    (fullRefresh preprocessorOnly : Bool) : Project :=
  let project := project.record Event.messageClearErrorCount
  let project :=
    if fullRefresh then
      { project with m_storage := project.m_storage.clear }.record Event.storageClear
    else project
  let text := project.settingsFileText
  let project :=
    { project with m_storage := project.m_storage.setProjectSettingsText text }.record
      (Event.storageSetProjectSettingsText text)
  let project := project.recordAll
    (project.m_sourceGroups.map (fun _ => Event.getIndexerCommands fullRefresh))
  let indexerCommandList := collectIndexerCommands project.m_sourceGroups fullRefresh
    app.cancelIndexingOnFatalErrors preprocessorOnly
  project.record (Event.taskDispatch (buildTaskTree app filesToClean indexerCommandList))

/-- `Project::requestIndex` (lines 272-416). -/
def requestIndex (app : Application) (fs : FileSystem) (project : Project)
    (forceRefresh needsFullRefresh : Bool) : Bool × Project :=
  match prepareIndexRequest app fs project forceRefresh needsFullRefresh with
  | (project, none) => (false, project)
  | (project, some request) =>
    if request.filesToClean.card = 0 ∧ request.filesToIndex.card = 0 then
      (false, project.record
        (Event.messageStatus "Nothing to refresh, all files are up-to-date." false false))
    else
      let project := project.record
        (Event.messageStatus
          (if request.fullRefresh then "Reindexing Project" else "Refreshing Project")
          false true)
      (true, buildIndex app project request.filesToClean request.fullRefresh
        request.preprocessorOnly)

/-! ## `Project::refresh`, `Project::setStateSettingsUpdated`, `Project::load` -/

/-- One labelled block of a `switch` over the project state: its `case` label (`none` for
`default:`), what its statements do to the locals `(needsFullRefresh, question)`, and whether it
ends with `break`. -/
structure SwitchBlock where
  label : Option ProjectStateType
  body : Bool × String → Bool × String
  hasBreak : Bool

/-- Execution of consecutive blocks: a block without `break` falls through to the next one. -/
def runBlocks : List SwitchBlock → Bool × String → Bool × String
  | [], locals => locals
  | block :: rest, locals =>
    if block.hasBreak then block.body locals else runBlocks rest (block.body locals)

/-- The blocks from the `case` label of `state` on, if there is such a label. -/
def jumpToCase (state : ProjectStateType) : List SwitchBlock → Option (List SwitchBlock)
  | [] => none
  | block :: rest =>
    if block.label = some state then some (block :: rest) else jumpToCase state rest

/-- The blocks from the `default:` label on. -/
def jumpToDefault : List SwitchBlock → List SwitchBlock
  | [] => []
  | block :: rest => if block.label = none then block :: rest else jumpToDefault rest

/-- A `switch (state)`: control jumps to the matching `case`, or to `default:` when no `case`
matches, and runs from there. -/
def runSwitch (blocks : List SwitchBlock) (state : ProjectStateType) (locals : Bool × String) :
    Bool × String :=
  match jumpToCase state blocks with
  | some fromCase => runBlocks fromCase locals
  | none => runBlocks (jumpToDefault blocks) locals

/-- The blocks of the `switch (m_state)` of `Project::refresh` (lines 64-102).  In the source
the block of `PROJECT_STATE_NEEDS_MIGRATION` has no `break` (`migrationBreaks = false`); the
parameter also describes the same switch with that `break` written out. -/
def refreshSwitchBlocks (migrationBreaks : Bool) : List SwitchBlock :=
  [ { label := some PROJECT_STATE_EMPTY
      body := fun locals => (true, locals.2)
      hasBreak := true },
    { label := some PROJECT_STATE_LOADED
      body := fun locals => locals
      hasBreak := true },
    { label := some PROJECT_STATE_OUTDATED
      body := fun _ =>
        (true,
          "The project file was changed after the last indexing. The project needs to get fully reindexed to " ++
          "reflect the current project state. Do you want to reindex the project?")
      hasBreak := true },
    { label := some PROJECT_STATE_OUTVERSIONED
      body := fun _ =>
        (true,
          "This project was indexed with a different version of Sourcetrail. It needs to be fully reindexed to be used " ++
          "with this version of Sourcetrail. Do you want to reindex the project?")
      hasBreak := true },
    { label := some PROJECT_STATE_SETTINGS_UPDATED
      body := fun _ =>
        (true,
          "Some settings were changed, the project needs to be fully reindexed. " ++
          "Do you want to reindex the project?")
      hasBreak := true },
    { label := some PROJECT_STATE_NEEDS_MIGRATION
      body := fun _ =>
        (true,
          "This project was created with a different version of Sourcetrail. The project file needs to get updated and " ++
          "the project fully reindexed. Do you want to update the project file and reindex the project?")
      hasBreak := migrationBreaks },
    { label := none
      body := fun locals => locals
      hasBreak := true } ]

/-- The `switch (m_state)` of `Project::refresh` (lines 61-102): the pair
`(needsFullRefresh, question)` after it, from the initial values `false` and the empty string.
`PROJECT_STATE_NEEDS_MIGRATION` falls through to the empty `default`. -/
def refreshSwitch (state : ProjectStateType) : Bool × String :=
  runSwitch (refreshSwitchBlocks false) state (false, "")

/-- The message of the trial-mode dialog (line 123). -/
def trialMessage : String :=
  "You can't refresh the project in trial mode, please unlock with a license key."

/-- The loop of lines 146-152: `false` as soon as a group fails `prepareRefresh()`. -/
def prepareRefreshAll : List SourceGroup → Bool
  | [] => true
  | sourceGroup :: rest => if !sourceGroup.prepareRefresh then false else prepareRefreshAll rest

/-- Lines 104-117 of `Project::refresh`: the confirmation dialog.  The first component tells
whether the user declined (`result == 1`, the `return false` of line 115). -/
def confirmFullRefresh (app : Application) (project : Project) (forceRefresh : Bool) :
    Bool × Project :=
  let needsFullRefresh := (refreshSwitch project.m_state).1
  let question := (refreshSwitch project.m_state).2
  if !forceRefresh && needsFullRefresh && question.length != 0 && app.hasGUI then
    (app.confirm question ["Yes", "No"] == 1,
      project.record (Event.dialogConfirm question ["Yes", "No"]))
  else (false, project)

/-- Lines 138-157 of `Project::refresh`: migration, reload of the settings, creation of the
source groups, `prepareRefresh()` of every group and the name delimiter.  The first component is
`false` when a group failed `prepareRefresh()` (the `return false` of line 150). -/
def prepareSourceGroups (settings : ProjectSettings) (project : Project) : Bool × Project :=
  let project :=
    if project.m_state = PROJECT_STATE_NEEDS_MIGRATION then
      { project with settingsFileText := settings.migrate project.settingsFileText }.record
        Event.settingsMigrate
    else project
  let project := project.record Event.settingsReload
  let project := { project with m_sourceGroups := settings.sourceGroups }
  if !prepareRefreshAll project.m_sourceGroups then (false, project)
  else
    match project.m_sourceGroups with
    | [] => (true, project)
    | front :: _ => (true, project.record (Event.setDelimiter front.language))

/-- The project as it is when `Project::refresh` calls `requestIndex` at line 159. -/
def projectAtRequestIndex (app : Application) (settings : ProjectSettings) (project : Project)
    (forceRefresh : Bool) : Project :=
  (prepareSourceGroups settings
    ((confirmFullRefresh app project forceRefresh).2.record
      (Event.showUnknownProgressDialog "Preparing Project" "Processing Files"))).2

/-- Lines 159-168 of `Project::refresh`. -/
def finishRefresh (result : Bool × Project) : Bool × Project :=
  if result.1 then
    let project := { result.2 with proxySubject := true }.record (Event.proxySetSubject true)
    (true, { project with m_state := PROJECT_STATE_LOADED })
  else (false, result.2)

/-- `Project::refresh` (lines 54-169).  The `ScopedFunctor dialogHider` of line 133 hides the
progress dialog when the function is left after that line. -/
def refresh (app : Application) (settings : ProjectSettings) (fs : FileSystem)
    (project : Project) (forceRefresh : Bool) : Bool × Project :=
  if project.m_state = PROJECT_STATE_NOT_LOADED then (false, project)
  else
    let needsFullRefresh := (refreshSwitch project.m_state).1
    let confirmed := confirmFullRefresh app project forceRefresh
    if confirmed.1 then (false, confirmed.2)
    else if app.isInTrial then
      let project := confirmed.2.record (Event.dialogConfirm trialMessage ["Ok"])
      (false, project.record Event.messageDispatchWhenLicenseValidRefresh)
    else
      let project := confirmed.2.record
        (Event.showUnknownProgressDialog "Preparing Project" "Processing Files")
      let prepared := prepareSourceGroups settings project
      if !prepared.1 then (false, prepared.2.record Event.hideUnknownProgressDialog)
      else
        let result := finishRefresh
          (requestIndex app fs prepared.2 forceRefresh needsFullRefresh)
        (result.1, result.2.record Event.hideUnknownProgressDialog)

/-- Modelled from the spec: `utility::replace(text, "\r", "")`; `utility::replace` is declared
in `utility/utilityString.h`, which is not among the translated sources.  `Project::load` calls it
with the pattern `"\r"` and the empty replacement only, which deletes every carriage return of
`text`. -/
def utility.removeCarriageReturns (text : String) : String :=
  String.mk (text.toList.filter (fun c => c != '\r'))

/-- Modelled from the spec: `TextAccess::createFromString(text)->getText()`; `TextAccess` is not
among the translated sources.  The spec has `load()` compare the on-disk settings text "with the
text snapshot stored in `PersistentStorage`": the text is handed back as it was stored. -/
def TextAccess.textFromString (text : String) : String :=
  text

/-- What `Project::load` finds on disk next to the settings file: `FilePath::extension`,
`FilePath::replaceExtension`, and the `PersistentStorage` that is opened for a database path and
a bookmark path. -/
structure StorageFiles where
  extension : FilePath → String
  replaceExtension : FilePath → String → FilePath
  openStorage : FilePath → FilePath → PersistentStorage

/-- Lines 213-242 of `Project::load`: the new state and `canLoad`. -/
def classifyProject (needMigration : Bool) (storage : PersistentStorage)
    (settingsFileText : String) : ProjectStateType × Bool :=
  if needMigration then
    (PROJECT_STATE_NEEDS_MIGRATION, !storage.isEmpty && !storage.isIncompatible)
  else if storage.isEmpty then
    (PROJECT_STATE_EMPTY, false)
  else if storage.isIncompatible then
    (PROJECT_STATE_OUTVERSIONED, false)
  else if utility.removeCarriageReturns settingsFileText ≠
      utility.removeCarriageReturns (TextAccess.textFromString storage.projectSettingsText) then
    (PROJECT_STATE_OUTDATED, true)
  else
    (PROJECT_STATE_LOADED, true)

/-- Lines 247-250 of `Project::load`: the name delimiter of the first group's language. -/
def setDelimiterOfFront (project : Project) : Project :=
  match project.m_sourceGroups with
  | [] => project
  | front :: _ => project.record (Event.setDelimiter front.language)

/-- Lines 252-264 of `Project::load`. -/
def publishStorage (canLoad : Bool) (project : Project) : Project :=
  if canLoad then
    let project := project.record (Event.storageSetMode StorageModeType.STORAGE_MODE_READ)
    let project := project.record Event.storageBuildCaches
    let project := { project with proxySubject := true }.record (Event.proxySetSubject true)
    let project := project.record Event.messageFinishedParsing
    project.record (Event.messageStatus "Finished Loading" false false)
  else
    project.record (Event.messageStatus "Project not loaded" false false)

/-- Lines 266-269 of `Project::load`. -/
def requestRefreshUnlessLoaded (project : Project) : Project :=
  if project.m_state ≠ PROJECT_STATE_LOADED then project.record Event.messageRefresh
  else project

/-- `Project::load` (lines 194-270). -/
def load (settings : ProjectSettings) (files : StorageFiles) (project : Project) : Project :=
  let project := { project with proxySubject := false }.record (Event.proxySetSubject false)
  let project := project.record Event.settingsReload
  let loadedSettings := settings.reload
  if !loadedSettings then project
  else
    let projectSettingsPath := settings.filePath
    let dbExtension :=
      if files.extension projectSettingsPath = ".coatiproject" then "coatidb" else "srctrldb"
    let dbPath := files.replaceExtension projectSettingsPath dbExtension
    let bookmarkPath := files.replaceExtension projectSettingsPath "srctrlbm"
    let project := { project with m_storage := files.openStorage dbPath bookmarkPath }
    let classified := classifyProject settings.needMigration project.m_storage
      project.settingsFileText
    let canLoad := classified.2
    let project := { project with m_state := classified.1 }
    let project := project.record Event.storageSetup
    let project := { project with m_sourceGroups := settings.sourceGroups }
    let project := setDelimiterOfFront project
    let project := publishStorage canLoad project
    requestRefreshUnlessLoaded project

/-! ## Classes of effects -/

/-- Is the event one of the effects that only `Project::buildIndex` makes on the storage, the
source groups and the scheduler: clearing the storage, storing a settings snapshot, asking a group
for its indexer commands, or dispatching a task tree? -/
def Event.isBuildIndexEffect (event : Event) : Bool :=
  event.isStorageClear || event.isSetProjectSettingsText || event.isTaskDispatch ||
    event.isGetIndexerCommands

/-- `after` arises from `before` by effects that touch neither `m_state` nor `m_storage` and
are not effects of `Project::buildIndex`. -/
def Project.QuietlyExtends (before after : Project) : Prop :=
  after.m_state = before.m_state ∧ after.m_storage = before.m_storage ∧
    ∃ events, after.log = before.log ++ events ∧
      ∀ event ∈ events, event.isBuildIndexEffect = false

/-! ## Specification-side notions -/

/-- Specification: a persisted record counts as changed when its file is missing on disk or
its write time on disk is strictly greater than the stored one. -/
def FileSystem.hasChanged (fs : FileSystem) (info : FileInfo) : Bool :=
  !fs.pathExists info.path || decide (info.lastWriteTime < fs.lastWriteTime info.path)

/-- Specification: `changed`, the set of persisted files that are missing on disk or newer on
disk than stored. -/
def specChanged (storage : PersistentStorage) (fs : FileSystem) : Finset FilePath :=
  ((storage.infoOnAllFiles.filter fs.hasChanged).map FileInfo.path).toFinset

/-- Specification: `unchanged`, the set of persisted files that exist on disk with a write
time not greater than the stored one. -/
def specUnchanged (storage : PersistentStorage) (fs : FileSystem) : Finset FilePath :=
  ((storage.infoOnAllFiles.filter (fun info => !fs.hasChanged info)).map FileInfo.path).toFinset

/-- Specification: the paths that have a persisted `FileInfo` record. -/
def persistedPaths (storage : PersistentStorage) : Finset FilePath :=
  (storage.infoOnAllFiles.map FileInfo.path).toFinset

/-! ## A concrete project: `a.cpp` includes `h.h`, and `h.h` was edited -/

/-- A database holding `a.cpp` and `h.h`, both stored with write time 10; `a.cpp` references
`h.h`. -/
def headerEditStorage : PersistentStorage :=
  { infoOnAllFiles := [{ path := "a.cpp", lastWriteTime := 10 }, { path := "h.h", lastWriteTime := 10 }]
    referencing := fun paths => if "h.h" ∈ paths then {"a.cpp"} else ∅
    referenced := fun paths => if "a.cpp" ∈ paths then {"h.h"} else ∅
    projectSettingsText := "settings"
    isEmpty := false
    isIncompatible := false }

/-- Both files exist on disk; `h.h` has write time 11, every other file 10. -/
def headerEditFileSystem : FileSystem :=
  { pathExists := fun _ => true
    lastWriteTime := fun path => if path = "h.h" then 11 else 10 }

/-- An application without GUI and outside trial mode, with two indexer threads. -/
def plainApplication : Application :=
  { hasGUI := false
    isInTrial := false
    confirm := fun _ _ => 0
    startIndexingDialog := fun _ _ _ options => options
    cancelIndexingOnFatalErrors := false
    indexerThreadCount := 2
    idealThreadCount := 4
    shuffle := fun commands => commands
    shuffle_perm := fun commands => List.Perm.refl commands }

/-- The single C++ source group of the header-edit project: its only source is `a.cpp`. -/
def headerEditSourceGroup : SourceGroup :=
  { language := LANGUAGE_CPP
    prepareRefresh := true
    prepareIndexing := true
    allSourceFilePaths := {"a.cpp"}
    sourceFilePathsToIndex := fun _ => ∅
    indexerCommands := fun _ =>
      [{ sourcePath := "a.cpp", language := LANGUAGE_CPP, cancelOnFatalErrors := false,
         preprocessorOnly := false }] }

/-- The settings of the header-edit project. -/
def headerEditSettings : ProjectSettings :=
  { filePath := "project.srctrlprj"
    reload := true
    needMigration := false
    migrate := fun text => text
    sourceGroups := [headerEditSourceGroup] }

/-- The header-edit project, loaded and up to date with its settings. -/
def headerEditProject : Project :=
  { m_state := PROJECT_STATE_LOADED
    m_storage := headerEditStorage
    m_sourceGroups := [headerEditSourceGroup]
    proxySubject := true
    settingsFileText := "settings"
    log := [] }

/-- A file system on which every file exists with write time 10: nothing was edited. -/
def untouchedFileSystem : FileSystem :=
  { pathExists := fun _ => true
    lastWriteTime := fun _ => 10 }

/-- The request with which the planner ends for the header-edit project on the untouched file
system: an incremental refresh of the single source `a.cpp`. -/
def untouchedRequest : IndexRequest :=
  applyFullRefresh {"a.cpp"}
    (planIndex headerEditStorage untouchedFileSystem [headerEditSourceGroup] {"a.cpp"} false)
    false false

/-- The request with which the planner ends for a forced refresh of the header-edit project. -/
def forcedRequest : IndexRequest :=
  applyFullRefresh {"a.cpp"}
    (planIndex headerEditStorage headerEditFileSystem [headerEditSourceGroup] {"a.cpp"} false)
    true false

/-- The database path that `Project::load` derives from the settings path (lines 205-208). -/
def databasePath (settings : ProjectSettings) (files : StorageFiles) : FilePath :=
  files.replaceExtension settings.filePath
    (if files.extension settings.filePath = ".coatiproject" then "coatidb" else "srctrldb")

/-- The bookmark path that `Project::load` derives from the settings path (line 209). -/
def bookmarkPath (settings : ProjectSettings) (files : StorageFiles) : FilePath :=
  files.replaceExtension settings.filePath "srctrlbm"

/-- The files next to the settings of the header-edit project: every database path opens the
header-edit database. -/
def headerEditFiles : StorageFiles :=
  { extension := fun _ => ".srctrlprj"
    replaceExtension := fun path extension => path ++ "." ++ extension
    openStorage := fun _ _ => headerEditStorage }

/-- The header-edit project before `load()`, with a settings file that was saved with
Windows line ends. -/
def unloadedProject : Project :=
  { m_state := PROJECT_STATE_NOT_LOADED
    m_storage := headerEditStorage.clear
    m_sourceGroups := []
    proxySubject := false
    settingsFileText := "set\rtings\r"
    log := [] }

/-- An application with GUI whose indexing dialog is confirmed with the full-refresh option
switched off. -/
def incrementalDialogApplication : Application :=
  { hasGUI := true
    isInTrial := false
    confirm := fun _ _ => 0
    startIndexingDialog := fun _ _ _ options =>
      { options with startIndexing := true, fullRefresh := false }
    cancelIndexingOnFatalErrors := false
    indexerThreadCount := 2
    idealThreadCount := 4
    shuffle := fun commands => commands
    shuffle_perm := fun commands => List.Perm.refl commands }

/-- The request with which the planner ends for the header-edit project when the dialog has
switched the full refresh off: an incremental refresh. -/
def incrementalRequest : IndexRequest :=
  applyFullRefresh {"a.cpp"}
    (planIndex headerEditStorage headerEditFileSystem [headerEditSourceGroup] {"a.cpp"} false)
    false false

/-! ## Notions for the claims on task trees, `load()` and the refresh switch -/

/-- Specification: the `switch (m_state)` of `Project::refresh` with an explicit `break` at
the end of the `PROJECT_STATE_NEEDS_MIGRATION` block. -/
def refreshSwitchWithBreak (state : ProjectStateType) : Bool × String :=
  runSwitch (refreshSwitchBlocks true) state (false, "")

/-- Is the event one of the three steps by which `Project::load` publishes the storage:
`setMode`, `buildCaches`, or `setSubject` on the access proxy? -/
def Event.isPublication : Event → Bool
  | .storageSetMode _ => true
  | .storageBuildCaches => true
  | .proxySetSubject _ => true
  | _ => false

/-- Lines 378-388 of `Project::requestIndex`: the answer of the indexing dialog, which is
opened with the sizes of `filesToClean`, `filesToIndex` and `allSourceFilePaths` as the planner
left them and with the options preset from `forceRefresh`, `needsFullRefresh` and
`hasCXXSourceGroup`. -/
def indexingDialogAnswer (app : Application) (fs : FileSystem) (project : Project)
    (forceRefresh needsFullRefresh : Bool) (allSourceFilePaths : Finset FilePath) :
    IndexingOptions :=
  let plan := planIndex project.m_storage fs project.m_sourceGroups allSourceFilePaths
    needsFullRefresh
  app.startIndexingDialog plan.filesToClean.card plan.filesToIndex.card allSourceFilePaths.card
    { startIndexing := false
      fullRefreshVisible := !needsFullRefresh
      fullRefresh := forceRefresh
      preprocessorOnlyVisible := hasCXXSourceGroup project.m_sourceGroups
      preprocessorOnly := false }

/-- The indexer commands held by the `TaskBuildIndex` nodes of a task tree, in the order of the
nodes. -/
def Task.indexerCommands : Task → List IndexerCommand
  | .TaskCleanStorage _ => []
  | .TaskSetValue _ _ => []
  | .TaskParseWrapper task => task.indexerCommands
  | .TaskGroupSequence children => ofChildren children
  | .TaskGroupParallel children => ofChildren children
  | .TaskGroupSelector children => ofChildren children
  | .TaskDecoratorRepeat _ _ child => child.indexerCommands
  | .TaskReturnSuccessWhile _ _ _ => []
  | .TaskBuildIndex indexerCommandList => indexerCommandList
  | .TaskMergeStorages => []
  | .TaskInjectStorage => []
  | .TaskShowStatusDialog _ _ => []
  | .TaskFinishParsing => []
where
  /-- The indexer commands held by the trees of a list. -/
  ofChildren : List Task → List IndexerCommand
    | [] => []
    | child :: children => child.indexerCommands ++ ofChildren children

/-- The project as it is when `Project::load` reaches line 247 after a successful
`reload()`: the storage is opened, the state is classified, `setup()` has run and the source
groups are created. -/
def projectAtDelimiter (settings : ProjectSettings) (files : StorageFiles) (project : Project) :
    Project :=
  { m_state := (classifyProject settings.needMigration
      (files.openStorage (databasePath settings files) (bookmarkPath settings files))
      project.settingsFileText).1
    m_storage := files.openStorage (databasePath settings files) (bookmarkPath settings files)
    m_sourceGroups := settings.sourceGroups
    proxySubject := false
    settingsFileText := project.settingsFileText
    log := project.log ++ [Event.proxySetSubject false] ++ [Event.settingsReload] ++
      [Event.storageSetup] }

/-! ## Further concrete projects -/

/-- The header-edit project with an empty database, as `load()` leaves it before the first
indexing. -/
def emptyProject : Project :=
  { m_state := PROJECT_STATE_EMPTY
    m_storage := headerEditStorage.clear
    m_sourceGroups := [headerEditSourceGroup]
    proxySubject := false
    settingsFileText := "settings"
    log := [] }

/-- A database holding `a.cpp` and `b.cpp`, both stored with write time 10 and both referencing
`ghost.h`, for which the database has no file record. -/
def ghostStorage : PersistentStorage :=
  { infoOnAllFiles := [{ path := "a.cpp", lastWriteTime := 10 }, { path := "b.cpp", lastWriteTime := 10 }]
    referencing := fun _ => ∅
    referenced := fun paths => if "a.cpp" ∈ paths ∨ "b.cpp" ∈ paths then {"ghost.h"} else ∅
    projectSettingsText := "settings"
    isEmpty := false
    isIncompatible := false }

/-- Every file exists on disk; `a.cpp` has write time 11, every other file 10. -/
def ghostFileSystem : FileSystem :=
  { pathExists := fun _ => true
    lastWriteTime := fun path => if path = "a.cpp" then 11 else 10 }

/-- A source group whose source directory holds no file. -/
def sourcelessSourceGroup : SourceGroup :=
  { language := LANGUAGE_CPP
    prepareRefresh := true
    prepareIndexing := true
    allSourceFilePaths := ∅
    sourceFilePathsToIndex := fun _ => ∅
    indexerCommands := fun _ => [] }

/-- An outdated project all of whose sources were removed. -/
def sourcelessProject : Project :=
  { m_state := PROJECT_STATE_OUTDATED
    m_storage := headerEditStorage
    m_sourceGroups := [sourcelessSourceGroup]
    proxySubject := true
    settingsFileText := "settings changed"
    log := [] }

/-- The request with which the planner ends for the sourceless project once the indexing
dialog is confirmed. -/
def sourcelessRequest : IndexRequest :=
  applyFullRefresh ∅
    (planIndex headerEditStorage headerEditFileSystem [sourcelessSourceGroup] ∅ true)
    true false

/-! ## `IDECommunicationController` (`component/controller/IDECommunicationController.cpp`) -/

/-- `NetworkProtocolHelper::MESSAGE_TYPE`.  The enumeration is declared in
`NetworkProtocolHelper.h`, which is not among the translated sources: these are the enumerators
that `handleIncomingMessage` names, and `OTHER` stands for every remaining one. -/
inductive MESSAGE_TYPE where
  | UNKNOWN
  | SET_ACTIVE_TOKEN
  | CREATE_CDB_MESSAGE
  | PING
  | OTHER (code : Nat)
  deriving DecidableEq, Repr

/-- `NetworkProtocolHelper::SetActiveTokenMessage`, with the fields the controller reads. -/
structure SetActiveTokenMessage where
  fileLocation : String
  row : Nat
  column : Nat
  valid : Bool
  deriving DecidableEq, Repr

/-- `NetworkProtocolHelper::CreateProjectMessage`, with the fields the controller reads. -/
structure CreateProjectMessage where
  solutionFileLocation : String
  ideId : String
  valid : Bool
  deriving DecidableEq, Repr

/-- `NetworkProtocolHelper::CreateCDBProjectMessage`, with the fields the controller reads. -/
structure CreateCDBProjectMessage where
  cdbFileLocation : String
  headerPaths : List String
  ideId : String
  valid : Bool
  deriving DecidableEq, Repr

/-- `NetworkProtocolHelper::PingMessage`, with the fields the controller reads. -/
structure PingMessage where
  ideId : String
  valid : Bool
  deriving DecidableEq, Repr

/-- The static functions of `NetworkProtocolHelper` that `handleIncomingMessage` calls, as
oracles. -/
structure NetworkProtocolHelper where
  getMessageType : String → MESSAGE_TYPE
  parseSetActiveTokenMessage : String → SetActiveTokenMessage
  parseCreateCDBProjectMessage : String → CreateCDBProjectMessage
  parsePingMessage : String → PingMessage
  parseCreateProjectMessage : String → CreateProjectMessage

/-- A start `SourceLocation` together with what the controller reads of its end location. -/
structure SourceLocation where
  locationId : Nat
  isScopeLocation : Bool
  lineNumber : Nat
  columnNumber : Nat
  endLineNumber : Nat
  endColumnNumber : Nat

/-- The queries of `StorageAccess` that the controller makes; the start locations of
`getSourceLocationsForLinesInFile` come in the order of `forEachStartSourceLocation`. -/
structure StorageAccess where
  getFileInfoForFilePath : FilePath → FileInfo
  getSourceLocationsForLinesInFile : FilePath → Nat → Nat → List SourceLocation
  getNodeIdForFileNode : FilePath → Nat

/-- What `handleIncomingMessage` does, in order: the classification of the message,
applications of a parse function, invocations of a handler, log entries and dispatched
messages. -/
inductive IDEEvent where
  | getMessageType (message : String)
  | parseSetActiveTokenMessage (message : String)
  | parseCreateCDBProjectMessage (message : String)
  | parsePingMessage (message : String)
  | parseCreateProjectMessage (message : String)
  | handleSetActiveTokenMessage (message : SetActiveTokenMessage)
  | handleCreateCDBProjectMessage (message : CreateCDBProjectMessage)
  | handlePing (message : PingMessage)
  | handleCreateProjectMessage (message : CreateProjectMessage)
  | logError (text : String)
  | logInfo (text : String)
  | messageStatus (status : String) (isError : Bool)
  | messageActivateSourceLocations (locationIds : List Nat)
  | messageActivateWindow
  | messageActivateFile (filePath : FilePath) (row : Nat)
  | messageProjectNewWhenLicenseValid (solutionPath : String) (headerPaths : List String)
      (ideId : String)
  | messagePingReceived (ideId ideName : String)
  deriving DecidableEq, Repr

/-- Is the event the application of one of the four parse functions? -/
def IDEEvent.isParse : IDEEvent → Bool
  | .parseSetActiveTokenMessage _ => true
  | .parseCreateCDBProjectMessage _ => true
  | .parsePingMessage _ => true
  | .parseCreateProjectMessage _ => true
  | _ => false

/-- Is the event the invocation of one of the four handlers? -/
def IDEEvent.isHandler : IDEEvent → Bool
  | .handleSetActiveTokenMessage _ => true
  | .handleCreateCDBProjectMessage _ => true
  | .handlePing _ => true
  | .handleCreateProjectMessage _ => true
  | _ => false

/-- Is the event the dispatch of a message? -/
def IDEEvent.isDispatch : IDEEvent → Bool
  | .messageStatus _ _ => true
  | .messageActivateSourceLocations _ => true
  | .messageActivateWindow => true
  | .messageActivateFile _ _ => true
  | .messageProjectNewWhenLicenseValid _ _ _ => true
  | .messagePingReceived _ _ => true
  | _ => false

/-- Lines 119-132 of `handleSetActiveTokenMessage`: activation of the file node. -/
def activateFileNode (access : StorageAccess) (message : SetActiveTokenMessage) :
    List IDEEvent :=
  let fileId := access.getNodeIdForFileNode message.fileLocation
  if fileId > 0 then
    [IDEEvent.messageActivateFile message.fileLocation message.row,
      IDEEvent.messageActivateWindow]
  else
    [IDEEvent.messageStatus
      ("Activating source location from plug-in failed. File " ++ message.fileLocation
        ++ " was not found in the project.")
      true]

/-- `IDECommunicationController::handleSetActiveTokenMessage` (lines 76-134). -/
def handleSetActiveTokenMessage (fs : FileSystem) (access : StorageAccess)
    (message : SetActiveTokenMessage) : List IDEEvent :=
  if message.valid then
    let cursorColumn := message.column
    if (fs.getFileInfoForPath message.fileLocation).lastWriteTime
        = (access.getFileInfoForFilePath message.fileLocation).lastWriteTime then
      let sourceLocationFile :=
        access.getSourceLocationsForLinesInFile message.fileLocation message.row message.row
      let selectedLocationIds :=
        (sourceLocationFile.filter (fun startLocation =>
          !startLocation.isScopeLocation
            && startLocation.lineNumber == startLocation.endLineNumber
            && decide (startLocation.columnNumber ≤ cursorColumn)
            && decide (startLocation.endColumnNumber + 1 ≥ cursorColumn))).map
          SourceLocation.locationId
      if selectedLocationIds.length > 0 then
        [IDEEvent.messageStatus
          ("Activating source location from plug-in succeeded: " ++ message.fileLocation
            ++ ", row: " ++ toString message.row ++ ", col: " ++ toString message.column)
          false,
          IDEEvent.messageActivateSourceLocations selectedLocationIds,
          IDEEvent.messageActivateWindow]
      else activateFileNode access message
    else activateFileNode access message
  else []

/-- `IDECommunicationController::handleCreateProjectMessage` (lines 136-152). -/
def handleCreateProjectMessage (message : CreateProjectMessage) : List IDEEvent :=
  if message.valid then
    if message.ideId = "vs" then
      [IDEEvent.messageProjectNewWhenLicenseValid message.solutionFileLocation []
        message.ideId]
    else
      [IDEEvent.logError "Unable to parse provided solution, unknown format"]
  else []

/-- `IDECommunicationController::handleCreateCDBProjectMessage` (lines 154-169). -/
def handleCreateCDBProjectMessage (message : CreateCDBProjectMessage) : List IDEEvent :=
  if message.valid then
    [IDEEvent.messageProjectNewWhenLicenseValid message.cdbFileLocation message.headerPaths
      message.ideId]
  else
    [IDEEvent.logError "Unable to parse provided CDB, invalid data received"]

/-- `IDECommunicationController::handlePing` (lines 171-190). -/
def handlePing (message : PingMessage) : List IDEEvent :=
  if message.valid then
    let ideName := message.ideId
    let ideName := if ideName.isEmpty then "unknown IDE" else ideName
    [IDEEvent.logInfo (ideName ++ " instance detected via plugin port"),
      IDEEvent.messagePingReceived "" ideName]
  else
    [IDEEvent.logError "Can't handle ping, message is invalid"]

/-- `IDECommunicationController::handleIncomingMessage` (lines 30-59): what the call does for
a controller with the given `m_enabled`; the call changes no member. -/
def handleIncomingMessage (helper : NetworkProtocolHelper) (fs : FileSystem)
    (access : StorageAccess) (m_enabled : Bool) (message : String) : List IDEEvent :=
  if m_enabled == false then []
  else
    let messageType := helper.getMessageType message
    [IDEEvent.getMessageType message] ++
      (if messageType = MESSAGE_TYPE.UNKNOWN then
        [IDEEvent.logError "Invalid message type"]
      else if messageType = MESSAGE_TYPE.SET_ACTIVE_TOKEN then
        [IDEEvent.parseSetActiveTokenMessage message,
          IDEEvent.handleSetActiveTokenMessage (helper.parseSetActiveTokenMessage message)] ++
          handleSetActiveTokenMessage fs access (helper.parseSetActiveTokenMessage message)
      else if messageType = MESSAGE_TYPE.CREATE_CDB_MESSAGE then
        [IDEEvent.parseCreateCDBProjectMessage message,
          IDEEvent.handleCreateCDBProjectMessage
            (helper.parseCreateCDBProjectMessage message)] ++
          handleCreateCDBProjectMessage (helper.parseCreateCDBProjectMessage message)
      else if messageType = MESSAGE_TYPE.PING then
        [IDEEvent.parsePingMessage message,
          IDEEvent.handlePing (helper.parsePingMessage message)] ++
          handlePing (helper.parsePingMessage message)
      else
        [IDEEvent.parseCreateProjectMessage message,
          IDEEvent.handleCreateProjectMessage (helper.parseCreateProjectMessage message)] ++
          handleCreateProjectMessage (helper.parseCreateProjectMessage message))

/-- A protocol helper that classifies every message as `UNKNOWN` and whose parse functions
answer with invalid messages. -/
def unknownHelper : NetworkProtocolHelper :=
  { getMessageType := fun _ => MESSAGE_TYPE.UNKNOWN
    parseSetActiveTokenMessage := fun _ =>
      { fileLocation := "", row := 0, column := 0, valid := false }
    parseCreateCDBProjectMessage := fun _ =>
      { cdbFileLocation := "", headerPaths := [], ideId := "", valid := false }
    parsePingMessage := fun _ => { ideId := "", valid := false }
    parseCreateProjectMessage := fun _ =>
      { solutionFileLocation := "", ideId := "", valid := false } }

/-- A storage access without any file. -/
def noStorageAccess : StorageAccess :=
  { getFileInfoForFilePath := fun path => { path := path, lastWriteTime := 0 }
    getSourceLocationsForLinesInFile := fun _ _ _ => []
    getNodeIdForFileNode := fun _ => 0 }

/-! ## `FileLogger` (`utility/logging/FileLogger.cpp`) -/

/-- The number of values of an `unsigned int`, the type of the four counters of `FileLogger`
(`setMaxLogLineCount(unsigned int)`, `setMaxLogFileCount(unsigned int)`). -/
def unsignedIntRange : Nat :=
  4294967296

/-- The members of `FileLogger`. -/
structure FileLogger where
  m_logFileName : String
  m_logDirectory : FilePath
  m_maxLogLineCount : Nat
  m_maxLogFileCount : Nat
  m_currentLogLineCount : Nat
  m_currentLogFileCount : Nat
  m_currentLogFileName : String

/-- What `FileLogger` does to the files of the log directory. -/
inductive FileEffect where
  | append (path : FilePath) (text : String)
  | remove (path : FilePath)
  deriving DecidableEq, Repr

/-- The `if (m_currentLogLineCount >= m_maxLogLineCount)` block of `updateLogFileName`
(lines 75-85): the logger and `fileChanged` after it. -/
def FileLogger.rotate (logger : FileLogger) (fileChanged : Bool) : FileLogger × Bool :=
  if logger.m_currentLogLineCount ≥ logger.m_maxLogLineCount then
    let logger := { logger with m_currentLogLineCount := 0 }
    let logger :=
      { logger with
        m_currentLogFileCount := (logger.m_currentLogFileCount + 1) % unsignedIntRange }
    let logger :=
      if logger.m_currentLogFileCount ≥ logger.m_maxLogFileCount then
        { logger with m_currentLogFileCount := 0 }
      else logger
    (logger, true)
  else (logger, fileChanged)

/-- `FileLogger::updateLogFileName` (lines 67-95); `concat` is `FilePath::concat`.  The
result is the logger afterwards and the files that were removed. -/
def FileLogger.updateLogFileName (concat : FilePath → FilePath → FilePath)
    (logger : FileLogger) : FileLogger × List FileEffect :=
  let fileChanged := false
  let logger := { logger with m_currentLogFileName := logger.m_logFileName }
  let counted : FileLogger × Bool :=
    if logger.m_maxLogFileCount > 0 then
      let logger := { logger with m_currentLogFileName := logger.m_currentLogFileName ++ "_" }
      let rotated := logger.rotate fileChanged
      ({ rotated.1 with
          m_currentLogFileName :=
            rotated.1.m_currentLogFileName ++ toString rotated.1.m_currentLogFileCount },
        rotated.2)
    else (logger, fileChanged)
  let logger :=
    { counted.1 with m_currentLogFileName := counted.1.m_currentLogFileName ++ ".txt" }
  if counted.2 then
    (logger, [FileEffect.remove (concat logger.m_logDirectory logger.m_currentLogFileName)])
  else (logger, [])

/-- `LogMessage`, as `FileLogger::logMessage` prints it: `timeString` is
`getTimeString("%H:%M:%S")`, `fileName` is `getFileName()`. -/
structure LogMessage where
  message : String
  filePath : String
  fileName : String
  functionName : String
  line : Nat
  timeString : String
  threadId : String

/-- `FileLogger::logMessage` (lines 97-117). -/
def FileLogger.logMessage (concat : FilePath → FilePath → FilePath) (logger : FileLogger)
    (type : String) (message : LogMessage) : FileLogger × List FileEffect :=
  let text := message.timeString ++ " | " ++ message.threadId ++ " | "
  let text :=
    if message.filePath.length ≠ 0 then
      text ++ message.fileName ++ ":" ++ toString message.line ++ " " ++ message.functionName
        ++ "() | "
    else text
  let text := text ++ type ++ ": " ++ message.message ++ "\n"
  let written :=
    FileEffect.append (concat logger.m_logDirectory logger.m_currentLogFileName) text
  let logger :=
    { logger with
      m_currentLogLineCount := (logger.m_currentLogLineCount + 1) % unsignedIntRange }
  if logger.m_maxLogFileCount > 0 then
    let updated := logger.updateLogFileName concat
    (updated.1, written :: updated.2)
  else (logger, [written])

/-- A logger that keeps three files of at most two lines, with two lines written to file 2. -/
def rotatingLogger : FileLogger :=
  { m_logFileName := "log"
    m_logDirectory := "user/log/"
    m_maxLogLineCount := 2
    m_maxLogFileCount := 3
    m_currentLogLineCount := 2
    m_currentLogFileCount := 2
    m_currentLogFileName := "log_2.txt" }

/-! ## Lemmas on the loops of the planner -/

theorem toVector_toFinset (s : Finset FilePath) : (toVector s).toFinset = s := by
  unfold toVector
  exact Finset.sort_toFinset _ s

theorem foldl_erase_eq (paths : List FilePath) (s : Finset FilePath) :
    paths.foldl (fun acc path => acc.erase path) s = s \ paths.toFinset := by
  induction paths generalizing s with
  | nil => simp
  | cons a rest ih =>
    simp only [List.foldl_cons, ih, List.toFinset_cons]
    ext x
    simp only [Finset.mem_sdiff, Finset.mem_erase, Finset.mem_insert, List.mem_toFinset]
    tauto

theorem eraseEach_eq (s paths : Finset FilePath) : eraseEach s paths = s \ paths := by
  unfold eraseEach
  rw [foldl_erase_eq, toVector_toFinset]

theorem foldl_insert_if_eq (keep : FilePath → Prop) [DecidablePred keep] (paths : List FilePath)
    (s : Finset FilePath) :
    paths.foldl (fun acc path => if keep path then insert path acc else acc) s
      = s ∪ paths.toFinset.filter keep := by
  induction paths generalizing s with
  | nil => simp
  | cons a rest ih =>
    simp only [List.foldl_cons, ih, List.toFinset_cons]
    ext x
    by_cases hk : keep a
    · simp only [hk, if_true, Finset.mem_union, Finset.mem_insert, Finset.mem_filter,
        List.mem_toFinset]
      constructor
      · rintro ((h | h) | h)
        · exact Or.inr ⟨Or.inl h, h ▸ hk⟩
        · exact Or.inl h
        · exact Or.inr ⟨Or.inr h.1, h.2⟩
      · rintro (h | ⟨h | h, hx⟩)
        · exact Or.inl (Or.inr h)
        · exact Or.inl (Or.inl h)
        · exact Or.inr ⟨h, hx⟩
    · simp only [hk, if_false, Finset.mem_union, Finset.mem_insert, Finset.mem_filter,
        List.mem_toFinset]
      constructor
      · rintro (h | h)
        · exact Or.inl h
        · exact Or.inr ⟨Or.inr h.1, h.2⟩
      · rintro (h | ⟨h | h, hx⟩)
        · exact Or.inl h
        · exact absurd (h ▸ hx) hk
        · exact Or.inr ⟨h, hx⟩

theorem insertUnreferenced_eq (filesToClean staticReferenced staticSourceFiles
    dynamicReferenced : Finset FilePath) :
    insertUnreferenced filesToClean staticReferenced staticSourceFiles dynamicReferenced
      = filesToClean ∪ dynamicReferenced.filter
          (fun path => path ∉ staticReferenced ∧ path ∉ staticSourceFiles) := by
  unfold insertUnreferenced
  rw [foldl_insert_if_eq (fun path => path ∉ staticReferenced ∧ path ∉ staticSourceFiles),
    toVector_toFinset]

theorem staticSourceFilePaths_eq (allSourceFilePaths filesToClean filesToAdd : Finset FilePath) :
    staticSourceFilePaths allSourceFilePaths filesToClean filesToAdd
      = allSourceFilePaths.filter (fun path => path ∉ filesToClean ∧ path ∉ filesToAdd) := by
  unfold staticSourceFilePaths
  rw [foldl_insert_if_eq (fun path => path ∉ filesToClean ∧ path ∉ filesToAdd),
    toVector_toFinset, Finset.empty_union]

theorem classifyFileInfo_eq (fs : FileSystem) (acc : Finset FilePath × Finset FilePath)
    (info : FileInfo) :
    classifyFileInfo fs acc info =
      if fs.hasChanged info = true then (acc.1, insert info.path acc.2)
      else (insert info.path acc.1, acc.2) := by
  unfold classifyFileInfo FileSystem.hasChanged FileSystem.getFileInfoForPath
  by_cases hex : fs.pathExists info.path = true
  · by_cases hlt : info.lastWriteTime < fs.lastWriteTime info.path
    · simp [hex, hlt]
    · simp [hex, hlt]
  · simp [hex]

theorem foldl_classifyFileInfo (fs : FileSystem) (infos : List FileInfo)
    (acc : Finset FilePath × Finset FilePath) :
    infos.foldl (classifyFileInfo fs) acc =
      (acc.1 ∪ ((infos.filter (fun info => !fs.hasChanged info)).map FileInfo.path).toFinset,
        acc.2 ∪ ((infos.filter fs.hasChanged).map FileInfo.path).toFinset) := by
  induction infos generalizing acc with
  | nil => simp
  | cons info rest ih =>
    rw [List.foldl_cons, ih, classifyFileInfo_eq]
    by_cases hc : fs.hasChanged info = true
    · simp only [hc, if_true, List.filter_cons, Bool.not_true, Bool.false_eq_true, if_false,
        List.map_cons, List.toFinset_cons]
      congr 1
      ext x
      simp only [Finset.mem_union, Finset.mem_insert]
      tauto
    · simp only [Bool.not_eq_true] at hc
      simp only [hc, Bool.false_eq_true, if_false, List.filter_cons, Bool.not_false, if_true,
        List.map_cons, List.toFinset_cons]
      congr 1
      ext x
      simp only [Finset.mem_union, Finset.mem_insert]
      tauto

theorem partitionFileInfos_eq (storage : PersistentStorage) (fs : FileSystem) :
    partitionFileInfos fs storage.infoOnAllFiles = (specUnchanged storage fs, specChanged storage fs) := by
  unfold partitionFileInfos specUnchanged specChanged
  rw [foldl_classifyFileInfo]
  simp

theorem incrementalAnalysis_changed (storage : PersistentStorage) (fs : FileSystem)
    (S : Finset FilePath) :
    (incrementalAnalysis storage fs S).changedFilePaths = specChanged storage fs := by
  simp [incrementalAnalysis, partitionFileInfos_eq]

theorem incrementalAnalysis_unchanged (storage : PersistentStorage) (fs : FileSystem)
    (S : Finset FilePath) :
    (incrementalAnalysis storage fs S).unchangedFilePaths = specUnchanged storage fs := by
  simp [incrementalAnalysis, partitionFileInfos_eq]

theorem incrementalAnalysis_filesToClean (storage : PersistentStorage) (fs : FileSystem)
    (S : Finset FilePath) :
    (incrementalAnalysis storage fs S).filesToClean =
      specChanged storage fs ∪ storage.referencing (specChanged storage fs) ∪
        (storage.referenced (specChanged storage fs)).filter
          (fun p => p ∉ storage.referenced (S \ specChanged storage fs) ∧
            p ∉ S \ specChanged storage fs) := by
  simp only [incrementalAnalysis, partitionFileInfos_eq, insertUnreferenced_eq, eraseEach_eq,
    utility.append]

theorem incrementalAnalysis_filesToAdd (storage : PersistentStorage) (fs : FileSystem)
    (S : Finset FilePath) :
    (incrementalAnalysis storage fs S).filesToAdd =
      (S \ specChanged storage fs) \ specUnchanged storage fs := by
  simp only [incrementalAnalysis, partitionFileInfos_eq, eraseEach_eq]

theorem mem_specChanged (storage : PersistentStorage) (fs : FileSystem) (p : FilePath) :
    p ∈ specChanged storage fs ↔
      ∃ info ∈ storage.infoOnAllFiles, fs.hasChanged info = true ∧ info.path = p := by
  simp [specChanged, and_assoc]

theorem mem_specUnchanged (storage : PersistentStorage) (fs : FileSystem) (p : FilePath) :
    p ∈ specUnchanged storage fs ↔
      ∃ info ∈ storage.infoOnAllFiles, fs.hasChanged info = false ∧ info.path = p := by
  simp [specUnchanged, and_assoc]

theorem specChanged_union_specUnchanged (storage : PersistentStorage) (fs : FileSystem) :
    specChanged storage fs ∪ specUnchanged storage fs = persistedPaths storage := by
  ext p
  simp only [Finset.mem_union, mem_specChanged, mem_specUnchanged, persistedPaths,
    List.mem_toFinset, List.mem_map]
  constructor
  · rintro (⟨info, hmem, _, hp⟩ | ⟨info, hmem, _, hp⟩)
    · exact ⟨info, hmem, hp⟩
    · exact ⟨info, hmem, hp⟩
  · rintro ⟨info, hmem, hp⟩
    by_cases hc : fs.hasChanged info = true
    · exact Or.inl ⟨info, hmem, hc, hp⟩
    · exact Or.inr ⟨info, hmem, by simpa using hc, hp⟩

theorem hasChanged_iff (fs : FileSystem) (info : FileInfo) :
    fs.hasChanged info = true ↔
      (fs.pathExists info.path = false ∨ info.lastWriteTime < fs.lastWriteTime info.path) := by
  simp [FileSystem.hasChanged]

/-! ## The delta planner: claims C1 to C4 -/

/-- C1. In an incremental refresh (`needsFullRefresh = false`, before the full-refresh
override) `filesToClean` is `changed ∪ getReferencing(changed)` together with those paths of
`getReferenced(changed)` that are neither in `getReferenced(S \ changed)` nor in `S \ changed`,
where `changed` is the set of persisted files that are missing on disk or newer on disk than
stored. -/
theorem planIndex_filesToClean (storage : PersistentStorage) (fs : FileSystem)
    (sourceGroups : List SourceGroup) (S : Finset FilePath) :
    (planIndex storage fs sourceGroups S false).filesToClean =
      specChanged storage fs ∪ storage.referencing (specChanged storage fs) ∪
        (storage.referenced (specChanged storage fs)).filter
          (fun p => p ∉ storage.referenced (S \ specChanged storage fs) ∧
            p ∉ S \ specChanged storage fs) := by
  simp only [planIndex, Bool.not_false, if_true, incrementalAnalysis_filesToClean]

/-- C2. When the persisted records have pairwise distinct paths, every persisted path is
put into exactly one of `changedFilePaths` and `unchangedFilePaths`: into the first if and only
if the file does not exist on disk or its write time on disk is strictly greater than the stored
one, into the second otherwise; a persisted file that is missing on disk is in `filesToClean` of
an incremental refresh. -/
theorem partition_changed_unchanged (storage : PersistentStorage) (fs : FileSystem)
    (sourceGroups : List SourceGroup) (S : Finset FilePath)
    (hdistinct : (storage.infoOnAllFiles.map FileInfo.path).Nodup)
    (info : FileInfo) (hinfo : info ∈ storage.infoOnAllFiles) :
    (info.path ∈ (incrementalAnalysis storage fs S).changedFilePaths ↔
        (fs.pathExists info.path = false ∨ info.lastWriteTime < fs.lastWriteTime info.path)) ∧
      (info.path ∈ (incrementalAnalysis storage fs S).unchangedFilePaths ↔
        ¬ (fs.pathExists info.path = false ∨ info.lastWriteTime < fs.lastWriteTime info.path)) ∧
      (fs.pathExists info.path = false →
        info.path ∈ (planIndex storage fs sourceGroups S false).filesToClean) := by
  have hsame : ∀ other ∈ storage.infoOnAllFiles, other.path = info.path → other = info :=
    fun other hother hpath => List.inj_on_of_nodup_map hdistinct hother hinfo hpath
  rw [incrementalAnalysis_changed, incrementalAnalysis_unchanged, ← hasChanged_iff]
  have hchanged : info.path ∈ specChanged storage fs ↔ fs.hasChanged info = true := by
    rw [mem_specChanged]
    constructor
    · rintro ⟨other, hother, hc, hpath⟩
      rw [← hsame other hother hpath]
      exact hc
    · intro hc
      exact ⟨info, hinfo, hc, rfl⟩
  have hunchanged : info.path ∈ specUnchanged storage fs ↔ ¬ fs.hasChanged info = true := by
    rw [mem_specUnchanged]
    constructor
    · rintro ⟨other, hother, hc, hpath⟩
      rw [← hsame other hother hpath, hc]
      simp
    · intro hc
      exact ⟨info, hinfo, by simpa using hc, rfl⟩
  refine ⟨hchanged, hunchanged, ?_⟩
  intro hmissing
  simp only [planIndex, Bool.not_false, if_true, incrementalAnalysis_filesToClean]
  have hc : fs.hasChanged info = true := (hasChanged_iff fs info).2 (Or.inl hmissing)
  exact Finset.mem_union_left _ (Finset.mem_union_left _ (hchanged.2 hc))

/-- C2 at the header-edit project, for the record of `h.h`. -/
theorem partition_changed_unchanged_witness :
    (headerEditStorage.infoOnAllFiles.map FileInfo.path).Nodup ∧
    ({ path := "h.h", lastWriteTime := 10 } : FileInfo) ∈ headerEditStorage.infoOnAllFiles ∧
    (("h.h" ∈ (incrementalAnalysis headerEditStorage headerEditFileSystem {"a.cpp"}).changedFilePaths ↔
        (headerEditFileSystem.pathExists "h.h" = false ∨ 10 < headerEditFileSystem.lastWriteTime "h.h")) ∧
      ("h.h" ∈ (incrementalAnalysis headerEditStorage headerEditFileSystem {"a.cpp"}).unchangedFilePaths ↔
        ¬ (headerEditFileSystem.pathExists "h.h" = false ∨ 10 < headerEditFileSystem.lastWriteTime "h.h")) ∧
      (headerEditFileSystem.pathExists "h.h" = false →
        "h.h" ∈ (planIndex headerEditStorage headerEditFileSystem [] {"a.cpp"} false).filesToClean)) :=
  ⟨by decide, by simp [headerEditStorage],
    partition_changed_unchanged headerEditStorage headerEditFileSystem [] {"a.cpp"} (by decide)
      { path := "h.h", lastWriteTime := 10 } (by simp [headerEditStorage])⟩

/-- C3. In an incremental refresh `filesToAdd` is `(S \ changed) \ unchanged`, which is the
set of source paths without a persisted `FileInfo` record; it is disjoint from `changed` and
from `unchanged`. -/
theorem planIndex_filesToAdd (storage : PersistentStorage) (fs : FileSystem)
    (sourceGroups : List SourceGroup) (S : Finset FilePath) :
    (planIndex storage fs sourceGroups S false).filesToAdd =
        (S \ (incrementalAnalysis storage fs S).changedFilePaths) \
          (incrementalAnalysis storage fs S).unchangedFilePaths ∧
      (planIndex storage fs sourceGroups S false).filesToAdd = S \ persistedPaths storage ∧
      (∀ p, p ∈ (planIndex storage fs sourceGroups S false).filesToAdd ↔
        p ∈ S ∧ ∀ info ∈ storage.infoOnAllFiles, info.path ≠ p) ∧
      Disjoint (planIndex storage fs sourceGroups S false).filesToAdd
        (incrementalAnalysis storage fs S).changedFilePaths ∧
      Disjoint (planIndex storage fs sourceGroups S false).filesToAdd
        (incrementalAnalysis storage fs S).unchangedFilePaths := by
  have hadd : (planIndex storage fs sourceGroups S false).filesToAdd =
      (S \ specChanged storage fs) \ specUnchanged storage fs := by
    simp only [planIndex, Bool.not_false, if_true, incrementalAnalysis_filesToAdd]
  have hpers : (S \ specChanged storage fs) \ specUnchanged storage fs =
      S \ persistedPaths storage := by
    rw [← specChanged_union_specUnchanged]
    ext p
    simp only [Finset.mem_sdiff, Finset.mem_union]
    tauto
  rw [incrementalAnalysis_changed, incrementalAnalysis_unchanged, hadd]
  refine ⟨rfl, hpers, ?_, ?_, ?_⟩
  · intro p
    rw [hpers]
    simp only [Finset.mem_sdiff, persistedPaths, List.mem_toFinset, List.mem_map, not_exists,
      not_and]
  · rw [Finset.disjoint_left]
    intro p hp
    simp only [Finset.mem_sdiff] at hp
    exact hp.1.2
  · rw [Finset.disjoint_left]
    intro p hp
    simp only [Finset.mem_sdiff] at hp
    exact hp.2

/-- C4, as the claim states it, fails at the header-edit project with the single source
`a.cpp`: `a.cpp` is in `(S \ changed) ∩ unchanged`, and the set handed to the source groups
is not that set. -/
theorem staticSourceFilePaths_ne_static_inter_unchanged :
    (planIndex headerEditStorage headerEditFileSystem [] {"a.cpp"} false).staticSourceFilePaths ≠
      (({"a.cpp"} : Finset FilePath) \
          (incrementalAnalysis headerEditStorage headerEditFileSystem {"a.cpp"}).changedFilePaths) ∩
        (incrementalAnalysis headerEditStorage headerEditFileSystem {"a.cpp"}).unchangedFilePaths := by
  have hc : specChanged headerEditStorage headerEditFileSystem = {"h.h"} := by decide
  have hu : specUnchanged headerEditStorage headerEditFileSystem = {"a.cpp"} := by decide
  intro heq
  have hmem : "a.cpp" ∈ (planIndex headerEditStorage headerEditFileSystem [] {"a.cpp"}
      false).staticSourceFilePaths := by
    rw [heq, incrementalAnalysis_changed, incrementalAnalysis_unchanged, hc, hu]
    decide
  simp only [planIndex, Bool.not_false, if_true, staticSourceFilePaths_eq,
    incrementalAnalysis_filesToClean, hc, Finset.mem_filter, Finset.mem_union, not_or] at hmem
  exact hmem.2.1.1.2 (by decide)

/-- C4, amended. In an incremental refresh the set handed to every source group's
`fetchSourceFilePathsToIndex` consists of the source paths that are in neither `filesToClean`
nor `filesToAdd`; this is `(S \ changed) ∩ unchanged` without the paths of
`getReferencing(changed)`. -/
theorem planIndex_staticSourceFilePaths (storage : PersistentStorage) (fs : FileSystem)
    (sourceGroups : List SourceGroup) (S : Finset FilePath) :
    (planIndex storage fs sourceGroups S false).staticSourceFilePaths =
        ((S \ (incrementalAnalysis storage fs S).changedFilePaths) ∩
          (incrementalAnalysis storage fs S).unchangedFilePaths) \
          storage.referencing (incrementalAnalysis storage fs S).changedFilePaths ∧
      (planIndex storage fs sourceGroups S false).staticSourceFilePaths =
        (S \ (planIndex storage fs sourceGroups S false).filesToClean) \
          (planIndex storage fs sourceGroups S false).filesToAdd ∧
      (planIndex storage fs sourceGroups S false).filesToIndex =
        fetchFilesToIndex sourceGroups
          (((S \ (incrementalAnalysis storage fs S).changedFilePaths) ∩
            (incrementalAnalysis storage fs S).unchangedFilePaths) \
            storage.referencing (incrementalAnalysis storage fs S).changedFilePaths) := by
  have hstatic : (planIndex storage fs sourceGroups S false).staticSourceFilePaths =
      ((S \ specChanged storage fs) ∩ specUnchanged storage fs) \
        storage.referencing (specChanged storage fs) := by
    simp only [planIndex, Bool.not_false, if_true, staticSourceFilePaths_eq,
      incrementalAnalysis_filesToClean, incrementalAnalysis_filesToAdd]
    ext p
    simp only [Finset.mem_filter, Finset.mem_union, Finset.mem_sdiff, Finset.mem_inter]
    tauto
  rw [incrementalAnalysis_changed, incrementalAnalysis_unchanged]
  refine ⟨hstatic, ?_, ?_⟩
  · simp only [planIndex, Bool.not_false, if_true, staticSourceFilePaths_eq]
    ext p
    simp only [Finset.mem_filter, Finset.mem_sdiff]
    tauto
  · rw [← hstatic]
    rfl

/-! ## Lemmas on `Project::requestIndex` and `Project::refresh` -/

theorem mem_gatherAllSourceFilePaths (sourceGroups : List SourceGroup)
    (acc S : Finset FilePath) (h : gatherAllSourceFilePaths sourceGroups acc = some S)
    (p : FilePath) :
    p ∈ S ↔ p ∈ acc ∨ ∃ sourceGroup ∈ sourceGroups, p ∈ sourceGroup.allSourceFilePaths := by
  induction sourceGroups generalizing acc with
  | nil =>
    simp only [gatherAllSourceFilePaths, Option.some.injEq] at h
    subst h
    simp
  | cons sourceGroup rest ih =>
    simp only [gatherAllSourceFilePaths] at h
    by_cases hprep : sourceGroup.prepareIndexing = true
    · simp only [hprep, Bool.not_true, Bool.false_eq_true, if_false] at h
      rw [ih _ h]
      simp only [utility.append, Finset.mem_union, List.mem_cons, exists_eq_or_imp]
      tauto
    · simp [hprep] at h

theorem QuietlyExtends.refl (project : Project) : project.QuietlyExtends project :=
  ⟨rfl, rfl, [], by simp, by simp⟩

theorem QuietlyExtends.trans {a b c : Project} (hab : a.QuietlyExtends b)
    (hbc : b.QuietlyExtends c) : a.QuietlyExtends c := by
  obtain ⟨hs1, hm1, ev1, hl1, hq1⟩ := hab
  obtain ⟨hs2, hm2, ev2, hl2, hq2⟩ := hbc
  refine ⟨hs2.trans hs1, hm2.trans hm1, ev1 ++ ev2, ?_, ?_⟩
  · rw [hl2, hl1, List.append_assoc]
  · intro event hmem
    rcases List.mem_append.1 hmem with h | h
    · exact hq1 event h
    · exact hq2 event h

theorem QuietlyExtends.recordAll (project : Project) (events : List Event)
    (hquiet : ∀ event ∈ events, event.isBuildIndexEffect = false) :
    project.QuietlyExtends (project.recordAll events) :=
  ⟨rfl, rfl, events, rfl, hquiet⟩

theorem QuietlyExtends.record (project : Project) (event : Event)
    (hquiet : event.isBuildIndexEffect = false) :
    project.QuietlyExtends (project.record event) :=
  ⟨rfl, rfl, [event], rfl, by simpa using hquiet⟩

theorem prepareIndexRequest_quiet (app : Application) (fs : FileSystem) (project : Project)
    (forceRefresh needsFullRefresh : Bool) :
    project.QuietlyExtends
      (prepareIndexRequest app fs project forceRefresh needsFullRefresh).1 := by
  unfold prepareIndexRequest
  cases hgather : gatherAllSourceFilePaths project.m_sourceGroups ∅ with
  | none => exact QuietlyExtends.refl project
  | some S =>
    have hfetch : project.QuietlyExtends (project.recordAll (project.m_sourceGroups.map
        (fun _ => Event.fetchSourceFilePathsToIndex
          (planIndex project.m_storage fs project.m_sourceGroups S
            needsFullRefresh).staticSourceFilePaths))) := by
      apply QuietlyExtends.recordAll
      intro event hmem
      simp only [List.mem_map] at hmem
      obtain ⟨_, _, rfl⟩ := hmem
      rfl
    by_cases hgui : app.hasGUI = true
    · simp only [hgui, if_true]
      have hdialog := QuietlyExtends.trans hfetch
        (QuietlyExtends.trans
          (QuietlyExtends.record _ Event.hideUnknownProgressDialog rfl)
          (QuietlyExtends.record _ (Event.startIndexingDialog
            (planIndex project.m_storage fs project.m_sourceGroups S
              needsFullRefresh).filesToClean.card
            (planIndex project.m_storage fs project.m_sourceGroups S
              needsFullRefresh).filesToIndex.card
            S.card
            { startIndexing := false
              fullRefreshVisible := !needsFullRefresh
              fullRefresh := forceRefresh
              preprocessorOnlyVisible := hasCXXSourceGroup project.m_sourceGroups
              preprocessorOnly := false }) rfl))
      split
      · exact hdialog
      · exact hdialog
    · simp only [hgui, Bool.false_eq_true, if_false]
      exact hfetch

theorem prepareIndexRequest_request (app : Application) (fs : FileSystem) (project : Project)
    (forceRefresh needsFullRefresh : Bool) (request : IndexRequest)
    (h : (prepareIndexRequest app fs project forceRefresh needsFullRefresh).2 = some request) :
    ∃ S fullRefresh preprocessorOnly,
      gatherAllSourceFilePaths project.m_sourceGroups ∅ = some S ∧
      request = applyFullRefresh S
        (planIndex project.m_storage fs project.m_sourceGroups S needsFullRefresh)
        fullRefresh preprocessorOnly ∧
      (needsFullRefresh = true → fullRefresh = true) ∧
      (app.hasGUI = false →
        fullRefresh = (forceRefresh || needsFullRefresh) ∧ preprocessorOnly = false) ∧
      (app.hasGUI = true →
        fullRefresh = ((app.startIndexingDialog
          (planIndex project.m_storage fs project.m_sourceGroups S
            needsFullRefresh).filesToClean.card
          (planIndex project.m_storage fs project.m_sourceGroups S
            needsFullRefresh).filesToIndex.card
          S.card
          { startIndexing := false
            fullRefreshVisible := !needsFullRefresh
            fullRefresh := forceRefresh
            preprocessorOnlyVisible := hasCXXSourceGroup project.m_sourceGroups
            preprocessorOnly := false }).fullRefresh || needsFullRefresh)) := by
  unfold prepareIndexRequest at h
  cases hgather : gatherAllSourceFilePaths project.m_sourceGroups ∅ with
  | none => simp [hgather] at h
  | some S =>
    simp only [hgather] at h
    by_cases hgui : app.hasGUI = true
    · simp only [hgui, if_true] at h
      split at h
      · simp at h
      · simp only [Option.some.injEq] at h
        refine ⟨S, _, _, rfl, h.symm, ?_, ?_, ?_⟩
        · intro hn
          simp [hn]
        · intro hno
          rw [hgui] at hno
          exact absurd hno (by decide)
        · intro _
          rfl
    · simp only [hgui, Bool.false_eq_true, if_false, Option.some.injEq] at h
      refine ⟨S, _, _, rfl, h.symm, ?_, ?_, ?_⟩
      · intro hn
        simp [hn]
      · intro _
        exact ⟨rfl, rfl⟩
      · intro hyes
        exact absurd hyes hgui

theorem requestIndex_eq (app : Application) (fs : FileSystem) (project : Project)
    (forceRefresh needsFullRefresh : Bool) :
    requestIndex app fs project forceRefresh needsFullRefresh =
      match (prepareIndexRequest app fs project forceRefresh needsFullRefresh).2 with
      | none => (false, (prepareIndexRequest app fs project forceRefresh needsFullRefresh).1)
      | some request =>
        if request.filesToClean.card = 0 ∧ request.filesToIndex.card = 0 then
          (false, (prepareIndexRequest app fs project forceRefresh needsFullRefresh).1.record
            (Event.messageStatus "Nothing to refresh, all files are up-to-date." false false))
        else
          (true, buildIndex app
            ((prepareIndexRequest app fs project forceRefresh needsFullRefresh).1.record
              (Event.messageStatus
                (if request.fullRefresh then "Reindexing Project" else "Refreshing Project")
                false true))
            request.filesToClean request.fullRefresh request.preprocessorOnly) := by
  unfold requestIndex
  rcases hprep : prepareIndexRequest app fs project forceRefresh needsFullRefresh with
    ⟨prepared, _ | request⟩
  · rfl
  · rfl

theorem requestIndex_false_quiet (app : Application) (fs : FileSystem) (project : Project)
    (forceRefresh needsFullRefresh : Bool)
    (hfalse : (requestIndex app fs project forceRefresh needsFullRefresh).1 = false) :
    project.QuietlyExtends (requestIndex app fs project forceRefresh needsFullRefresh).2 := by
  have hquiet := prepareIndexRequest_quiet app fs project forceRefresh needsFullRefresh
  rw [requestIndex_eq] at hfalse ⊢
  cases hreq : (prepareIndexRequest app fs project forceRefresh needsFullRefresh).2 with
  | none => exact hquiet
  | some request =>
    simp only [hreq] at hfalse ⊢
    split at hfalse
    · rename_i hempty
      rw [if_pos hempty]
      exact QuietlyExtends.trans hquiet (QuietlyExtends.record _ _ rfl)
    · simp at hfalse

theorem requestIndex_nothing (app : Application) (fs : FileSystem) (project : Project)
    (forceRefresh needsFullRefresh : Bool) (request : IndexRequest)
    (hreq : (prepareIndexRequest app fs project forceRefresh needsFullRefresh).2 = some request)
    (hclean : request.filesToClean = ∅) (hindex : request.filesToIndex = ∅) :
    (requestIndex app fs project forceRefresh needsFullRefresh).1 = false := by
  rw [requestIndex_eq]
  simp [hreq, hclean, hindex]

theorem requestIndex_true (app : Application) (fs : FileSystem) (project : Project)
    (forceRefresh needsFullRefresh : Bool)
    (htrue : (requestIndex app fs project forceRefresh needsFullRefresh).1 = true) :
    ∃ request,
      (prepareIndexRequest app fs project forceRefresh needsFullRefresh).2 = some request ∧
      ¬ (request.filesToClean.card = 0 ∧ request.filesToIndex.card = 0) ∧
      (requestIndex app fs project forceRefresh needsFullRefresh).2 =
        buildIndex app
          ((prepareIndexRequest app fs project forceRefresh needsFullRefresh).1.record
            (Event.messageStatus
              (if request.fullRefresh then "Reindexing Project" else "Refreshing Project")
              false true))
          request.filesToClean request.fullRefresh request.preprocessorOnly := by
  rw [requestIndex_eq] at htrue ⊢
  cases hreq : (prepareIndexRequest app fs project forceRefresh needsFullRefresh).2 with
  | none => simp [hreq] at htrue
  | some request =>
    simp only [hreq] at htrue ⊢
    by_cases hempty : request.filesToClean.card = 0 ∧ request.filesToIndex.card = 0
    · simp [hempty] at htrue
    · exact ⟨request, rfl, hempty, by rw [if_neg hempty]⟩

theorem confirmFullRefresh_quiet (app : Application) (project : Project) (forceRefresh : Bool) :
    project.QuietlyExtends (confirmFullRefresh app project forceRefresh).2 := by
  unfold confirmFullRefresh
  dsimp only
  split
  · exact QuietlyExtends.record _ _ rfl
  · exact QuietlyExtends.refl project

theorem prepareSourceGroups_quiet (settings : ProjectSettings) (project : Project) :
    project.QuietlyExtends (prepareSourceGroups settings project).2 := by
  have hmigrate : project.QuietlyExtends
      (if project.m_state = PROJECT_STATE_NEEDS_MIGRATION then
        { project with settingsFileText := settings.migrate project.settingsFileText }.record
          Event.settingsMigrate
      else project) := by
    split
    · exact ⟨rfl, rfl, [Event.settingsMigrate], rfl, by simp [Event.isBuildIndexEffect,
        Event.isStorageClear, Event.isSetProjectSettingsText, Event.isTaskDispatch,
        Event.isGetIndexerCommands]⟩
    · exact QuietlyExtends.refl project
  have hreload : project.QuietlyExtends
      { (Project.record (if project.m_state = PROJECT_STATE_NEEDS_MIGRATION then
          { project with settingsFileText := settings.migrate project.settingsFileText }.record
            Event.settingsMigrate
        else project) Event.settingsReload) with m_sourceGroups := settings.sourceGroups } :=
    QuietlyExtends.trans hmigrate ⟨rfl, rfl, [Event.settingsReload], rfl, by
      simp [Event.isBuildIndexEffect, Event.isStorageClear, Event.isSetProjectSettingsText,
        Event.isTaskDispatch, Event.isGetIndexerCommands]⟩
  unfold prepareSourceGroups
  simp only []
  split
  · exact hreload
  · split
    · exact hreload
    · exact QuietlyExtends.trans hreload (QuietlyExtends.record _ _ rfl)

theorem finishRefresh_true (result : Bool × Project) (h : result.1 = true) :
    (finishRefresh result).1 = true ∧
      (finishRefresh result).2.m_state = PROJECT_STATE_LOADED ∧
      (finishRefresh result).2.m_storage = result.2.m_storage ∧
      (finishRefresh result).2.settingsFileText = result.2.settingsFileText ∧
      (finishRefresh result).2.log = result.2.log ++ [Event.proxySetSubject true] := by
  simp [finishRefresh, h, Project.record]

theorem finishRefresh_false (result : Bool × Project) (h : result.1 = false) :
    finishRefresh result = (false, result.2) := by
  simp [finishRefresh, h]

theorem refresh_reaches (app : Application) (settings : ProjectSettings) (fs : FileSystem)
    (project : Project) (forceRefresh : Bool)
    (hloaded : project.m_state ≠ PROJECT_STATE_NOT_LOADED)
    (hconfirmed : (confirmFullRefresh app project forceRefresh).1 = false)
    (htrial : app.isInTrial = false)
    (hprepared : (prepareSourceGroups settings
      ((confirmFullRefresh app project forceRefresh).2.record
        (Event.showUnknownProgressDialog "Preparing Project" "Processing Files"))).1 = true) :
    refresh app settings fs project forceRefresh =
      ((finishRefresh (requestIndex app fs
          (projectAtRequestIndex app settings project forceRefresh) forceRefresh
          (refreshSwitch project.m_state).1)).1,
        (finishRefresh (requestIndex app fs
          (projectAtRequestIndex app settings project forceRefresh) forceRefresh
          (refreshSwitch project.m_state).1)).2.record Event.hideUnknownProgressDialog) := by
  unfold refresh projectAtRequestIndex
  simp [hloaded, hconfirmed, htrial, hprepared]

theorem refresh_not_reaches (app : Application) (settings : ProjectSettings) (fs : FileSystem)
    (project : Project) (forceRefresh : Bool)
    (hnot : ¬ (project.m_state ≠ PROJECT_STATE_NOT_LOADED ∧
      (confirmFullRefresh app project forceRefresh).1 = false ∧
      app.isInTrial = false ∧
      (prepareSourceGroups settings
        ((confirmFullRefresh app project forceRefresh).2.record
          (Event.showUnknownProgressDialog "Preparing Project" "Processing Files"))).1 = true)) :
    (refresh app settings fs project forceRefresh).1 = false ∧
      project.QuietlyExtends (refresh app settings fs project forceRefresh).2 := by
  unfold refresh
  by_cases hloaded : project.m_state = PROJECT_STATE_NOT_LOADED
  · simp only [hloaded, if_true]
    exact ⟨trivial, QuietlyExtends.refl project⟩
  · simp only [hloaded, if_false]
    have hq1 := confirmFullRefresh_quiet app project forceRefresh
    by_cases hconfirmed : (confirmFullRefresh app project forceRefresh).1 = true
    · simp only [hconfirmed, if_true]
      exact ⟨trivial, hq1⟩
    · simp only [hconfirmed, Bool.false_eq_true, if_false]
      by_cases htrial : app.isInTrial = true
      · simp only [htrial, if_true]
        exact ⟨trivial, QuietlyExtends.trans hq1 (QuietlyExtends.trans
          (QuietlyExtends.record _ (Event.dialogConfirm trialMessage ["Ok"]) rfl)
          (QuietlyExtends.record _ Event.messageDispatchWhenLicenseValidRefresh rfl))⟩
      · simp only [htrial, Bool.false_eq_true, if_false]
        have hq2 := QuietlyExtends.trans hq1 (QuietlyExtends.record
          (confirmFullRefresh app project forceRefresh).2
          (Event.showUnknownProgressDialog "Preparing Project" "Processing Files") rfl)
        have hq3 := QuietlyExtends.trans hq2 (prepareSourceGroups_quiet settings
          ((confirmFullRefresh app project forceRefresh).2.record
            (Event.showUnknownProgressDialog "Preparing Project" "Processing Files")))
        by_cases hprepared : (prepareSourceGroups settings
            ((confirmFullRefresh app project forceRefresh).2.record
              (Event.showUnknownProgressDialog "Preparing Project" "Processing Files"))).1 = true
        · exact absurd ⟨hloaded, by simpa using hconfirmed, by simpa using htrial, hprepared⟩ hnot
        · simp only [hprepared, Bool.not_false, if_true]
          exact ⟨trivial, QuietlyExtends.trans hq3
            (QuietlyExtends.record _ Event.hideUnknownProgressDialog rfl)⟩

theorem projectAtRequestIndex_quiet (app : Application) (settings : ProjectSettings)
    (project : Project) (forceRefresh : Bool) :
    project.QuietlyExtends (projectAtRequestIndex app settings project forceRefresh) :=
  QuietlyExtends.trans (confirmFullRefresh_quiet app project forceRefresh)
    (QuietlyExtends.trans
      (QuietlyExtends.record _
        (Event.showUnknownProgressDialog "Preparing Project" "Processing Files") rfl)
      (prepareSourceGroups_quiet settings _))

theorem refresh_false_quiet (app : Application) (settings : ProjectSettings) (fs : FileSystem)
    (project : Project) (forceRefresh : Bool)
    (hfalse : (refresh app settings fs project forceRefresh).1 = false) :
    project.QuietlyExtends (refresh app settings fs project forceRefresh).2 := by
  by_cases hreach : project.m_state ≠ PROJECT_STATE_NOT_LOADED ∧
      (confirmFullRefresh app project forceRefresh).1 = false ∧
      app.isInTrial = false ∧
      (prepareSourceGroups settings
        ((confirmFullRefresh app project forceRefresh).2.record
          (Event.showUnknownProgressDialog "Preparing Project" "Processing Files"))).1 = true
  · obtain ⟨h1, h2, h3, h4⟩ := hreach
    rw [refresh_reaches app settings fs project forceRefresh h1 h2 h3 h4] at hfalse ⊢
    simp only at hfalse ⊢
    have hreq : (requestIndex app fs (projectAtRequestIndex app settings project forceRefresh)
        forceRefresh (refreshSwitch project.m_state).1).1 = false := by
      by_contra hne
      have htrue := (finishRefresh_true _ (by simpa using hne)).1
      rw [htrue] at hfalse
      exact absurd hfalse (by decide)
    rw [finishRefresh_false _ hreq]
    exact QuietlyExtends.trans (projectAtRequestIndex_quiet app settings project forceRefresh)
      (QuietlyExtends.trans (requestIndex_false_quiet app fs _ forceRefresh _ hreq)
        (QuietlyExtends.record _ Event.hideUnknownProgressDialog rfl))
  · exact (refresh_not_reaches app settings fs project forceRefresh hreach).2

theorem refresh_true_eq (app : Application) (settings : ProjectSettings) (fs : FileSystem)
    (project : Project) (forceRefresh : Bool)
    (htrue : (refresh app settings fs project forceRefresh).1 = true) :
    (requestIndex app fs (projectAtRequestIndex app settings project forceRefresh)
        forceRefresh (refreshSwitch project.m_state).1).1 = true ∧
      (refresh app settings fs project forceRefresh).2 =
        (finishRefresh (requestIndex app fs
          (projectAtRequestIndex app settings project forceRefresh) forceRefresh
          (refreshSwitch project.m_state).1)).2.record Event.hideUnknownProgressDialog := by
  by_cases hreach : project.m_state ≠ PROJECT_STATE_NOT_LOADED ∧
      (confirmFullRefresh app project forceRefresh).1 = false ∧
      app.isInTrial = false ∧
      (prepareSourceGroups settings
        ((confirmFullRefresh app project forceRefresh).2.record
          (Event.showUnknownProgressDialog "Preparing Project" "Processing Files"))).1 = true
  · obtain ⟨h1, h2, h3, h4⟩ := hreach
    rw [refresh_reaches app settings fs project forceRefresh h1 h2 h3 h4] at htrue ⊢
    simp only at htrue ⊢
    refine ⟨?_, trivial⟩
    by_contra hne
    rw [finishRefresh_false _ (by simpa using hne)] at htrue
    simp at htrue
  · rw [(refresh_not_reaches app settings fs project forceRefresh hreach).1] at htrue
    exact absurd htrue (by decide)

theorem QuietlyExtends.events {before after : Project} (h : before.QuietlyExtends after) :
    ∃ events, after.log = before.log ++ events ∧
      ∀ event ∈ events, event.isTaskDispatch = false ∧ event.isStorageClear = false ∧
        event.isSetProjectSettingsText = false := by
  obtain ⟨_, _, events, hlog, hquiet⟩ := h
  refine ⟨events, hlog, ?_⟩
  intro event hmem
  have hq := hquiet event hmem
  simp only [Event.isBuildIndexEffect, Bool.or_eq_false_iff] at hq
  exact ⟨hq.1.2, hq.1.1.1, hq.1.1.2⟩

/-! ## The project controller: claims C5 to C7 -/

/-- C5. Whenever `Project::requestIndex` reaches line 399 with the effective `fullRefresh`
flag set, the request it goes on with has `filesToClean = ∅` and `filesToIndex = S`, the set of
all source paths of all source groups, whatever the incremental analysis and the source groups
computed before. -/
theorem prepareIndexRequest_fullRefresh (app : Application) (fs : FileSystem)
    (project : Project) (forceRefresh needsFullRefresh : Bool) (request : IndexRequest)
    (hreq : (prepareIndexRequest app fs project forceRefresh needsFullRefresh).2 = some request)
    (hfull : request.fullRefresh = true) :
    request.filesToClean = ∅ ∧ request.filesToIndex = request.allSourceFilePaths ∧
      gatherAllSourceFilePaths project.m_sourceGroups ∅ = some request.allSourceFilePaths ∧
      ∀ p, p ∈ request.filesToIndex ↔
        ∃ sourceGroup ∈ project.m_sourceGroups, p ∈ sourceGroup.allSourceFilePaths := by
  obtain ⟨S, fullRefresh, preprocessorOnly, hgather, rfl, _⟩ :=
    prepareIndexRequest_request app fs project forceRefresh needsFullRefresh request hreq
  simp only [applyFullRefresh] at hfull
  subst hfull
  simp only [applyFullRefresh, if_true]
  refine ⟨trivial, trivial, hgather, ?_⟩
  intro p
  rw [mem_gatherAllSourceFilePaths _ _ _ hgather p]
  simp

/-- C5 at a forced refresh of the header-edit project without GUI. -/
theorem prepareIndexRequest_fullRefresh_witness :
    (prepareIndexRequest plainApplication headerEditFileSystem headerEditProject true false).2
        = some forcedRequest ∧
      forcedRequest.fullRefresh = true ∧
      (forcedRequest.filesToClean = ∅ ∧
        forcedRequest.filesToIndex = forcedRequest.allSourceFilePaths ∧
        gatherAllSourceFilePaths headerEditProject.m_sourceGroups ∅
          = some forcedRequest.allSourceFilePaths ∧
        ∀ p, p ∈ forcedRequest.filesToIndex ↔
          ∃ sourceGroup ∈ headerEditProject.m_sourceGroups,
            p ∈ sourceGroup.allSourceFilePaths) :=
  ⟨rfl, rfl,
    prepareIndexRequest_fullRefresh plainApplication headerEditFileSystem headerEditProject
      true false forcedRequest rfl rfl⟩

theorem untouchedRequest_filesToClean : untouchedRequest.filesToClean = ∅ := by
  have hc : specChanged headerEditStorage untouchedFileSystem = ∅ := by decide
  simp only [untouchedRequest, applyFullRefresh, planIndex, Bool.not_false, if_true,
    Bool.false_eq_true, if_false, incrementalAnalysis_filesToClean, hc]
  decide

theorem untouchedRequest_filesToIndex : untouchedRequest.filesToIndex = ∅ := by
  simp [untouchedRequest, applyFullRefresh, planIndex, fetchFilesToIndex, utility.append,
    headerEditSourceGroup]

/-- C6. When the planner ends with `filesToClean = ∅` and `filesToIndex = ∅`,
`Project::requestIndex` returns `false` without calling `buildIndex`: among its effects there is
no dispatch of a task tree, no clearing of the storage and no new settings snapshot, and the
storage is as before; `Project::refresh` returns `false` and leaves `m_state`, the storage and
its settings snapshot as they were, again without any of these effects. -/
theorem refresh_nothing_to_refresh (app : Application) (settings : ProjectSettings)
    (fs : FileSystem) (project : Project) (forceRefresh : Bool) (request : IndexRequest)
    (hreq : (prepareIndexRequest app fs
      (projectAtRequestIndex app settings project forceRefresh) forceRefresh
      (refreshSwitch project.m_state).1).2 = some request)
    (hclean : request.filesToClean = ∅) (hindex : request.filesToIndex = ∅) :
    (requestIndex app fs (projectAtRequestIndex app settings project forceRefresh) forceRefresh
        (refreshSwitch project.m_state).1).1 = false ∧
      (requestIndex app fs (projectAtRequestIndex app settings project forceRefresh)
        forceRefresh (refreshSwitch project.m_state).1).2.m_storage =
        (projectAtRequestIndex app settings project forceRefresh).m_storage ∧
      (∃ events,
        (requestIndex app fs (projectAtRequestIndex app settings project forceRefresh)
          forceRefresh (refreshSwitch project.m_state).1).2.log =
          (projectAtRequestIndex app settings project forceRefresh).log ++ events ∧
        ∀ event ∈ events, event.isTaskDispatch = false ∧ event.isStorageClear = false ∧
          event.isSetProjectSettingsText = false) ∧
      (refresh app settings fs project forceRefresh).1 = false ∧
      (refresh app settings fs project forceRefresh).2.m_state = project.m_state ∧
      (refresh app settings fs project forceRefresh).2.m_storage = project.m_storage ∧
      (∃ events,
        (refresh app settings fs project forceRefresh).2.log = project.log ++ events ∧
        ∀ event ∈ events, event.isTaskDispatch = false ∧ event.isStorageClear = false ∧
          event.isSetProjectSettingsText = false) := by
  have hfalse := requestIndex_nothing app fs
    (projectAtRequestIndex app settings project forceRefresh) forceRefresh
    (refreshSwitch project.m_state).1 request hreq hclean hindex
  have hquiet := requestIndex_false_quiet app fs
    (projectAtRequestIndex app settings project forceRefresh) forceRefresh
    (refreshSwitch project.m_state).1 hfalse
  have hrefresh : (refresh app settings fs project forceRefresh).1 = false := by
    by_contra hne
    have htrue := (refresh_true_eq app settings fs project forceRefresh (by simpa using hne)).1
    rw [hfalse] at htrue
    exact absurd htrue (by decide)
  have hrq := refresh_false_quiet app settings fs project forceRefresh hrefresh
  exact ⟨hfalse, hquiet.2.1, QuietlyExtends.events hquiet, hrefresh, hrq.1, hrq.2.1,
    QuietlyExtends.events hrq⟩

/-- C6 at the header-edit project when no file was touched since the last indexing. -/
theorem refresh_nothing_to_refresh_witness :
    (prepareIndexRequest plainApplication untouchedFileSystem
        (projectAtRequestIndex plainApplication headerEditSettings headerEditProject false) false
        (refreshSwitch headerEditProject.m_state).1).2 = some untouchedRequest ∧
      untouchedRequest.filesToClean = ∅ ∧ untouchedRequest.filesToIndex = ∅ ∧
      (refresh plainApplication headerEditSettings untouchedFileSystem headerEditProject false).1
        = false ∧
      (refresh plainApplication headerEditSettings untouchedFileSystem headerEditProject
        false).2.m_state = headerEditProject.m_state :=
  ⟨rfl, untouchedRequest_filesToClean, untouchedRequest_filesToIndex,
    (refresh_nothing_to_refresh plainApplication headerEditSettings untouchedFileSystem
      headerEditProject false untouchedRequest rfl untouchedRequest_filesToClean
      untouchedRequest_filesToIndex).2.2.2.1,
    (refresh_nothing_to_refresh plainApplication headerEditSettings untouchedFileSystem
      headerEditProject false untouchedRequest rfl untouchedRequest_filesToClean
      untouchedRequest_filesToIndex).2.2.2.2.1⟩

/-- C7. `Project::refresh` changes `m_state` only when it succeeds: after a refresh that
returns `true` the state is `PROJECT_STATE_LOADED`, after a refresh that returns `false` the
state is the one before the call. -/
theorem refresh_state (app : Application) (settings : ProjectSettings) (fs : FileSystem)
    (project : Project) (forceRefresh : Bool) :
    (refresh app settings fs project forceRefresh).2.m_state =
      if (refresh app settings fs project forceRefresh).1 = true then PROJECT_STATE_LOADED
      else project.m_state := by
  by_cases htrue : (refresh app settings fs project forceRefresh).1 = true
  · rw [if_pos htrue]
    obtain ⟨hreq, heq⟩ := refresh_true_eq app settings fs project forceRefresh htrue
    rw [heq]
    exact (finishRefresh_true _ hreq).2.1
  · rw [if_neg htrue]
    exact (refresh_false_quiet app settings fs project forceRefresh (by simpa using htrue)).1

/-! ## Lemmas on a successful refresh -/

theorem prepareIndexRequest_recordAll (app : Application) (fs : FileSystem) (project : Project)
    (forceRefresh needsFullRefresh : Bool) :
    ∃ events,
      (prepareIndexRequest app fs project forceRefresh needsFullRefresh).1 =
        project.recordAll events ∧
      ∀ event ∈ events, event.isBuildIndexEffect = false := by
  unfold prepareIndexRequest
  cases hgather : gatherAllSourceFilePaths project.m_sourceGroups ∅ with
  | none => exact ⟨[], by simp [Project.recordAll], by simp⟩
  | some S =>
    have hfetch : ∀ event ∈ project.m_sourceGroups.map
        (fun _ => Event.fetchSourceFilePathsToIndex
          (planIndex project.m_storage fs project.m_sourceGroups S
            needsFullRefresh).staticSourceFilePaths), event.isBuildIndexEffect = false := by
      intro event hmem
      simp only [List.mem_map] at hmem
      obtain ⟨_, _, rfl⟩ := hmem
      rfl
    by_cases hgui : app.hasGUI = true
    · simp only [hgui, if_true]
      have hall : ∀ event ∈ project.m_sourceGroups.map
          (fun _ => Event.fetchSourceFilePathsToIndex
            (planIndex project.m_storage fs project.m_sourceGroups S
              needsFullRefresh).staticSourceFilePaths) ++
          [Event.hideUnknownProgressDialog,
            Event.startIndexingDialog
              (planIndex project.m_storage fs project.m_sourceGroups S
                needsFullRefresh).filesToClean.card
              (planIndex project.m_storage fs project.m_sourceGroups S
                needsFullRefresh).filesToIndex.card
              S.card
              { startIndexing := false
                fullRefreshVisible := !needsFullRefresh
                fullRefresh := forceRefresh
                preprocessorOnlyVisible := hasCXXSourceGroup project.m_sourceGroups
                preprocessorOnly := false }], event.isBuildIndexEffect = false := by
        intro event hmem
        rcases List.mem_append.1 hmem with h | h
        · exact hfetch event h
        · simp only [List.mem_cons, List.mem_singleton, List.not_mem_nil, or_false] at h
          rcases h with rfl | rfl
          · rfl
          · rfl
      split
      · exact ⟨_, by simp [Project.recordAll, Project.record], hall⟩
      · exact ⟨_, by simp [Project.recordAll, Project.record], hall⟩
    · simp only [hgui, Bool.false_eq_true, if_false]
      exact ⟨_, rfl, hfetch⟩

theorem buildIndex_eq (app : Application) (project : Project) (filesToClean : Finset FilePath)
    (fullRefresh preprocessorOnly : Bool) :
    buildIndex app project filesToClean fullRefresh preprocessorOnly =
      { project with
        m_storage := (if fullRefresh then project.m_storage.clear
          else project.m_storage).setProjectSettingsText project.settingsFileText
        log := project.log ++ [Event.messageClearErrorCount] ++
          (if fullRefresh then [Event.storageClear] else []) ++
          [Event.storageSetProjectSettingsText project.settingsFileText] ++
          project.m_sourceGroups.map (fun _ => Event.getIndexerCommands fullRefresh) ++
          [Event.taskDispatch (buildTaskTree app filesToClean
            (collectIndexerCommands project.m_sourceGroups fullRefresh
              app.cancelIndexingOnFatalErrors preprocessorOnly))] } := by
  cases fullRefresh <;> simp [buildIndex, Project.record, Project.recordAll]

theorem prepareSourceGroups_fields (settings : ProjectSettings) (project : Project) :
    (prepareSourceGroups settings project).2.m_sourceGroups = settings.sourceGroups ∧
      (prepareSourceGroups settings project).2.settingsFileText =
        (if project.m_state = PROJECT_STATE_NEEDS_MIGRATION then
          settings.migrate project.settingsFileText
        else project.settingsFileText) := by
  unfold prepareSourceGroups
  dsimp only
  by_cases hmig : project.m_state = PROJECT_STATE_NEEDS_MIGRATION
  · simp only [hmig, if_true]
    split
    · exact ⟨rfl, rfl⟩
    · split
      · exact ⟨rfl, rfl⟩
      · exact ⟨rfl, rfl⟩
  · simp only [hmig, if_false]
    split
    · exact ⟨rfl, rfl⟩
    · split
      · exact ⟨rfl, rfl⟩
      · exact ⟨rfl, rfl⟩

theorem confirmFullRefresh_fields (app : Application) (project : Project)
    (forceRefresh : Bool) :
    (confirmFullRefresh app project forceRefresh).2.m_state = project.m_state ∧
      (confirmFullRefresh app project forceRefresh).2.settingsFileText =
        project.settingsFileText := by
  unfold confirmFullRefresh
  dsimp only
  split
  · exact ⟨rfl, rfl⟩
  · exact ⟨rfl, rfl⟩

theorem projectAtRequestIndex_fields (app : Application) (settings : ProjectSettings)
    (project : Project) (forceRefresh : Bool) :
    (projectAtRequestIndex app settings project forceRefresh).m_sourceGroups =
        settings.sourceGroups ∧
      (projectAtRequestIndex app settings project forceRefresh).settingsFileText =
        (if project.m_state = PROJECT_STATE_NEEDS_MIGRATION then
          settings.migrate project.settingsFileText
        else project.settingsFileText) := by
  unfold projectAtRequestIndex
  have h := prepareSourceGroups_fields settings
    ((confirmFullRefresh app project forceRefresh).2.record
      (Event.showUnknownProgressDialog "Preparing Project" "Processing Files"))
  have hc := confirmFullRefresh_fields app project forceRefresh
  refine ⟨h.1, ?_⟩
  rw [h.2]
  simp only [Project.record, hc.1, hc.2]

theorem refresh_true_result (app : Application) (settings : ProjectSettings) (fs : FileSystem)
    (project : Project) (forceRefresh : Bool)
    (htrue : (refresh app settings fs project forceRefresh).1 = true) :
    ∃ request before,
      (prepareIndexRequest app fs (projectAtRequestIndex app settings project forceRefresh)
        forceRefresh (refreshSwitch project.m_state).1).2 = some request ∧
      ¬ (request.filesToClean.card = 0 ∧ request.filesToIndex.card = 0) ∧
      (∀ event ∈ before, event.isBuildIndexEffect = false) ∧
      (refresh app settings fs project forceRefresh).2.settingsFileText =
        (if project.m_state = PROJECT_STATE_NEEDS_MIGRATION then
          settings.migrate project.settingsFileText
        else project.settingsFileText) ∧
      (refresh app settings fs project forceRefresh).2.m_storage =
        (if request.fullRefresh then project.m_storage.clear
          else project.m_storage).setProjectSettingsText
          (refresh app settings fs project forceRefresh).2.settingsFileText ∧
      (refresh app settings fs project forceRefresh).2.log =
        project.log ++ before ++
          (if request.fullRefresh then [Event.storageClear] else []) ++
          [Event.storageSetProjectSettingsText
            (refresh app settings fs project forceRefresh).2.settingsFileText] ++
          settings.sourceGroups.map (fun _ => Event.getIndexerCommands request.fullRefresh) ++
          [Event.taskDispatch (buildTaskTree app request.filesToClean
              (collectIndexerCommands settings.sourceGroups request.fullRefresh
                app.cancelIndexingOnFatalErrors request.preprocessorOnly)),
            Event.proxySetSubject true, Event.hideUnknownProgressDialog] := by
  obtain ⟨hreqTrue, heq⟩ := refresh_true_eq app settings fs project forceRefresh htrue
  obtain ⟨request, hreq, hne, hbuild⟩ := requestIndex_true app fs _ forceRefresh _ hreqTrue
  obtain ⟨events, hprep, hquiet⟩ := prepareIndexRequest_recordAll app fs
    (projectAtRequestIndex app settings project forceRefresh) forceRefresh
    (refreshSwitch project.m_state).1
  obtain ⟨_, hstorage, events0, hlog0, hquiet0⟩ :=
    projectAtRequestIndex_quiet app settings project forceRefresh
  obtain ⟨hgroups, htext⟩ := projectAtRequestIndex_fields app settings project forceRefresh
  obtain ⟨_, _, hfinStorage, hfinText, hfinLog⟩ := finishRefresh_true _ hreqTrue
  rw [hbuild, buildIndex_eq, hprep] at hfinStorage hfinText hfinLog
  simp only [Project.record, Project.recordAll] at hfinStorage hfinText hfinLog
  have htextFinal : (refresh app settings fs project forceRefresh).2.settingsFileText =
      (if project.m_state = PROJECT_STATE_NEEDS_MIGRATION then
        settings.migrate project.settingsFileText
      else project.settingsFileText) := by
    rw [heq]
    simp only [Project.record]
    rw [hfinText, htext]
  refine ⟨request, events0 ++ events ++
    [Event.messageStatus
      (if request.fullRefresh then "Reindexing Project" else "Refreshing Project") false true,
      Event.messageClearErrorCount], hreq, hne, ?_, htextFinal, ?_, ?_⟩
  · intro event hmem
    simp only [List.mem_append, List.mem_cons, List.mem_singleton, List.not_mem_nil,
      or_false] at hmem
    rcases hmem with (h | h) | h | h
    · exact hquiet0 event h
    · exact hquiet event h
    · rw [h]; rfl
    · rw [h]; rfl
  · rw [htextFinal, heq]
    simp only [Project.record]
    rw [hfinStorage, hstorage, htext]
  · rw [htextFinal, heq]
    simp only [Project.record]
    rw [hfinLog, hlog0, hgroups, htext]
    simp only [List.append_assoc, List.cons_append, List.nil_append, List.singleton_append]

/-! ## `Project::load`: claim C8 -/

theorem setDelimiterOfFront_fields (project : Project) :
    (setDelimiterOfFront project).m_storage = project.m_storage ∧
      (setDelimiterOfFront project).m_state = project.m_state ∧
      (setDelimiterOfFront project).proxySubject = project.proxySubject := by
  unfold setDelimiterOfFront
  split
  · exact ⟨rfl, rfl, rfl⟩
  · exact ⟨rfl, rfl, rfl⟩

theorem publishStorage_fields (canLoad : Bool) (project : Project) :
    (publishStorage canLoad project).m_storage = project.m_storage ∧
      (publishStorage canLoad project).m_state = project.m_state ∧
      (publishStorage canLoad project).proxySubject = (canLoad || project.proxySubject) := by
  cases canLoad
  · exact ⟨rfl, rfl, rfl⟩
  · exact ⟨rfl, rfl, rfl⟩

theorem requestRefreshUnlessLoaded_fields (project : Project) :
    (requestRefreshUnlessLoaded project).m_storage = project.m_storage ∧
      (requestRefreshUnlessLoaded project).m_state = project.m_state ∧
      (requestRefreshUnlessLoaded project).proxySubject = project.proxySubject := by
  unfold requestRefreshUnlessLoaded
  split
  · exact ⟨rfl, rfl, rfl⟩
  · exact ⟨rfl, rfl, rfl⟩

theorem load_fields (settings : ProjectSettings) (files : StorageFiles) (project : Project)
    (hreload : settings.reload = true) :
    (load settings files project).m_storage =
        files.openStorage (databasePath settings files) (bookmarkPath settings files) ∧
      (load settings files project).m_state =
        (classifyProject settings.needMigration
          (files.openStorage (databasePath settings files) (bookmarkPath settings files))
          project.settingsFileText).1 ∧
      (load settings files project).proxySubject =
        (classifyProject settings.needMigration
          (files.openStorage (databasePath settings files) (bookmarkPath settings files))
          project.settingsFileText).2 := by
  unfold load databasePath bookmarkPath
  simp only [hreload, Bool.not_true, Bool.false_eq_true, if_false]
  refine ⟨?_, ?_, ?_⟩
  · rw [(requestRefreshUnlessLoaded_fields _).1, (publishStorage_fields _ _).1,
      (setDelimiterOfFront_fields _).1]
    rfl
  · rw [(requestRefreshUnlessLoaded_fields _).2.1, (publishStorage_fields _ _).2.1,
      (setDelimiterOfFront_fields _).2.1]
    rfl
  · rw [(requestRefreshUnlessLoaded_fields _).2.2, (publishStorage_fields _ _).2.2,
      (setDelimiterOfFront_fields _).2.2]
    simp [Project.record]

/-- C8. After a `load()` that read the settings file, `m_state` is `NEEDS_MIGRATION` if the
settings need migration; otherwise `EMPTY` if the storage is empty; otherwise `OUTVERSIONED` if
the storage is incompatible; otherwise `OUTDATED` if the settings text on disk and the snapshot
in the storage differ once every carriage return is removed from both; otherwise `LOADED`.
Hence the state is `LOADED` exactly when no migration is needed, the storage is neither empty nor
incompatible, and the two texts agree up to carriage returns. -/
theorem load_state (settings : ProjectSettings) (files : StorageFiles) (project : Project)
    (hreload : settings.reload = true) :
    (load settings files project).m_state =
        (if settings.needMigration = true then PROJECT_STATE_NEEDS_MIGRATION
        else if (load settings files project).m_storage.isEmpty = true then PROJECT_STATE_EMPTY
        else if (load settings files project).m_storage.isIncompatible = true then
          PROJECT_STATE_OUTVERSIONED
        else if String.mk (project.settingsFileText.toList.filter (fun c => c != '\r')) ≠
            String.mk ((load settings files project).m_storage.projectSettingsText.toList.filter
              (fun c => c != '\r')) then
          PROJECT_STATE_OUTDATED
        else PROJECT_STATE_LOADED) ∧
      ((load settings files project).m_state = PROJECT_STATE_LOADED ↔
        settings.needMigration = false ∧
          (load settings files project).m_storage.isEmpty = false ∧
          (load settings files project).m_storage.isIncompatible = false ∧
          String.mk (project.settingsFileText.toList.filter (fun c => c != '\r')) =
            String.mk ((load settings files project).m_storage.projectSettingsText.toList.filter
              (fun c => c != '\r'))) ∧
      (load settings files project).m_storage =
        files.openStorage (databasePath settings files) (bookmarkPath settings files) := by
  obtain ⟨hstorage, hstate, _⟩ := load_fields settings files project hreload
  rw [hstate, hstorage]
  unfold classifyProject utility.removeCarriageReturns TextAccess.textFromString
  generalize files.openStorage (databasePath settings files) (bookmarkPath settings files)
    = storage
  generalize settings.needMigration = needMigration
  generalize project.settingsFileText = diskText
  obtain ⟨_, _, _, storedText, isEmpty, isIncompatible⟩ := storage
  dsimp only
  generalize String.mk (diskText.toList.filter (fun c => c != '\r')) = cleanDiskText
  generalize String.mk (storedText.toList.filter (fun c => c != '\r')) = cleanStoredText
  by_cases htext : cleanDiskText = cleanStoredText
  · cases needMigration <;> cases isEmpty <;> cases isIncompatible <;> simp [htext]
  · cases needMigration <;> cases isEmpty <;> cases isIncompatible <;> simp [htext]

/-- C8 at the header-edit project, whose settings file differs from the stored snapshot by
carriage returns only. -/
theorem load_state_witness :
    headerEditSettings.reload = true ∧
      ((load headerEditSettings headerEditFiles unloadedProject).m_state = PROJECT_STATE_LOADED ↔
        headerEditSettings.needMigration = false ∧
          (load headerEditSettings headerEditFiles unloadedProject).m_storage.isEmpty = false ∧
          (load headerEditSettings headerEditFiles unloadedProject).m_storage.isIncompatible
            = false ∧
          String.mk (unloadedProject.settingsFileText.toList.filter (fun c => c != '\r')) =
            String.mk ((load headerEditSettings headerEditFiles
              unloadedProject).m_storage.projectSettingsText.toList.filter
                (fun c => c != '\r'))) :=
  ⟨rfl, (load_state headerEditSettings headerEditFiles unloadedProject rfl).2.1⟩

theorem load_unloadedProject_state :
    (load headerEditSettings headerEditFiles unloadedProject).m_state = PROJECT_STATE_LOADED := by
  decide

/-! ## Task trees without a clean task -/

theorem addWorkerTasks_eq (threadCount : Int) (size : Nat) (worker : Task) (fuel i : Nat)
    (children : List Task) (hfuel : size - i ≤ fuel) :
    addWorkerTasks threadCount size worker fuel i children =
      children ++ List.replicate (min threadCount.toNat size - i) worker := by
  induction fuel generalizing i children with
  | zero =>
    have hzero : min threadCount.toNat size - i = 0 := by omega
    simp [addWorkerTasks, hzero]
  | succ fuel ih =>
    unfold addWorkerTasks
    by_cases hcond : (i : Int) < threadCount ∧ i < size
    · rw [if_pos hcond, ih (i + 1) (children ++ [worker]) (by omega)]
      have hstep : min threadCount.toNat size - i =
          (min threadCount.toNat size - (i + 1)) + 1 := by omega
      rw [hstep, List.replicate_succ, List.append_assoc, List.singleton_append]
    · rw [if_neg hcond]
      have hzero : min threadCount.toNat size - i = 0 := by omega
      simp [hzero]

theorem parallelIndexingTask_eq (threadCount : Int) (indexerCommandList : List IndexerCommand) :
    parallelIndexingTask threadCount indexerCommandList =
      Task.TaskGroupParallel
        (List.replicate (min threadCount.toNat indexerCommandList.length)
            (repeatWhileSuccess (Task.TaskBuildIndex indexerCommandList))
          ++ [mergeTask, injectTask]) := by
  unfold parallelIndexingTask
  rw [addWorkerTasks_eq _ _ _ _ _ _ (by omega)]
  simp

theorem anyChild_nil : Task.containsCleanStorage.anyChild [] = false := by
  simp [Task.containsCleanStorage.anyChild]

theorem anyChild_cons (child : Task) (children : List Task) :
    Task.containsCleanStorage.anyChild (child :: children) =
      (child.containsCleanStorage || Task.containsCleanStorage.anyChild children) := by
  simp [Task.containsCleanStorage.anyChild]

theorem anyChild_append (left right : List Task) :
    Task.containsCleanStorage.anyChild (left ++ right) =
      (Task.containsCleanStorage.anyChild left || Task.containsCleanStorage.anyChild right) := by
  induction left with
  | nil => simp [anyChild_nil]
  | cons child rest ih => simp [anyChild_cons, ih, Bool.or_assoc]

theorem anyChild_replicate (count : Nat) (task : Task)
    (h : task.containsCleanStorage = false) :
    Task.containsCleanStorage.anyChild (List.replicate count task) = false := by
  induction count with
  | zero => simp [anyChild_nil]
  | succ n ih => simp [List.replicate_succ, anyChild_cons, h, ih]

theorem indexingTasks_anyChild (app : Application) (indexerCommandList : List IndexerCommand) :
    Task.containsCleanStorage.anyChild (indexingTasks app indexerCommandList) = false := by
  have hworker : ∀ commands : List IndexerCommand,
      (repeatWhileSuccess (Task.TaskBuildIndex commands)).containsCleanStorage = false := by
    intro commands
    simp [repeatWhileSuccess, Task.containsCleanStorage]
  simp [indexingTasks, parallelIndexingTask_eq, mergeTask, injectTask,
    Task.containsCleanStorage, anyChild_nil, anyChild_cons, anyChild_append,
    repeatWhileSuccess]
  exact anyChild_replicate _ _ (hworker _)

theorem buildTaskTree_containsCleanStorage (app : Application) (filesToClean : Finset FilePath)
    (indexerCommandList : List IndexerCommand) :
    (buildTaskTree app filesToClean indexerCommandList).containsCleanStorage =
      decide (filesToClean.card ≠ 0) := by
  have hindexing := indexingTasks_anyChild app indexerCommandList
  unfold buildTaskTree
  by_cases hclean : filesToClean.card = 0 <;>
    by_cases hcommands : indexerCommandList.length > 0 <;>
    simp [hclean, hcommands, Task.containsCleanStorage, anyChild_nil, anyChild_cons,
      anyChild_append, hindexing]

/-! ## A successful refresh: claims C9 and C10 -/

/-- C9. After a refresh that returns `true` the settings snapshot held by the storage is the
text of the settings file on disk as `buildIndex` read it (the text after `migrate()` when the
project needed migration); `buildIndex` stores it after the optional `clear()` and before the
task tree is dispatched, for full and incremental refreshes alike. -/
theorem refresh_projectSettingsText (app : Application) (settings : ProjectSettings)
    (fs : FileSystem) (project : Project) (forceRefresh : Bool)
    (htrue : (refresh app settings fs project forceRefresh).1 = true) :
    (refresh app settings fs project forceRefresh).2.m_storage.projectSettingsText =
        (refresh app settings fs project forceRefresh).2.settingsFileText ∧
      (refresh app settings fs project forceRefresh).2.settingsFileText =
        (if project.m_state = PROJECT_STATE_NEEDS_MIGRATION then
          settings.migrate project.settingsFileText
        else project.settingsFileText) ∧
      ∃ before after tree,
        (refresh app settings fs project forceRefresh).2.log =
          project.log ++ before ++
            [Event.storageSetProjectSettingsText
              (refresh app settings fs project forceRefresh).2.settingsFileText] ++
            after ++
            [Event.taskDispatch tree, Event.proxySetSubject true,
              Event.hideUnknownProgressDialog] ∧
        (∀ event ∈ before,
          event.isSetProjectSettingsText = false ∧ event.isTaskDispatch = false) ∧
        (∀ event ∈ after,
          event.isStorageClear = false ∧ event.isSetProjectSettingsText = false ∧
            event.isTaskDispatch = false) := by
  obtain ⟨request, before, _, _, hquiet, htext, hstorage, hlog⟩ :=
    refresh_true_result app settings fs project forceRefresh htrue
  refine ⟨?_, htext, before ++ (if request.fullRefresh then [Event.storageClear] else []),
    settings.sourceGroups.map (fun _ => Event.getIndexerCommands request.fullRefresh),
    buildTaskTree app request.filesToClean
      (collectIndexerCommands settings.sourceGroups request.fullRefresh
        app.cancelIndexingOnFatalErrors request.preprocessorOnly),
    ?_, ?_, ?_⟩
  · rw [hstorage]
    rfl
  · rw [hlog]
    simp only [List.append_assoc]
  · intro event hmem
    rcases List.mem_append.1 hmem with h | h
    · have hq := hquiet event h
      simp only [Event.isBuildIndexEffect, Bool.or_eq_false_iff] at hq
      exact ⟨hq.1.1.2, hq.1.2⟩
    · split at h
      · simp only [List.mem_singleton] at h
        rw [h]
        exact ⟨rfl, rfl⟩
      · simp at h
  · intro event hmem
    simp only [List.mem_map] at hmem
    obtain ⟨_, _, rfl⟩ := hmem
    exact ⟨rfl, rfl, rfl⟩

theorem headerEdit_forced_refresh :
    (refresh plainApplication headerEditSettings headerEditFileSystem headerEditProject
      true).1 = true := by
  decide

/-- C9 at a forced refresh of the header-edit project. -/
theorem refresh_projectSettingsText_witness :
    (refresh plainApplication headerEditSettings headerEditFileSystem headerEditProject
        true).1 = true ∧
      (refresh plainApplication headerEditSettings headerEditFileSystem headerEditProject
        true).2.m_storage.projectSettingsText =
        (refresh plainApplication headerEditSettings headerEditFileSystem headerEditProject
          true).2.settingsFileText :=
  ⟨headerEdit_forced_refresh,
    (refresh_projectSettingsText plainApplication headerEditSettings headerEditFileSystem
      headerEditProject true headerEdit_forced_refresh).1⟩

theorem incrementalRequest_filesToClean : incrementalRequest.filesToClean.card ≠ 0 := by
  have hc : specChanged headerEditStorage headerEditFileSystem = {"h.h"} := by decide
  have hmem : "h.h" ∈ incrementalRequest.filesToClean := by
    simp only [incrementalRequest, applyFullRefresh, planIndex, Bool.not_false, if_true,
      Bool.false_eq_true, if_false, incrementalAnalysis_filesToClean, hc]
    decide
  exact Finset.card_ne_zero_of_mem hmem

theorem incrementalDialog_requestIndex :
    (requestIndex incrementalDialogApplication headerEditFileSystem
      (projectAtRequestIndex incrementalDialogApplication headerEditSettings headerEditProject
        true) true (refreshSwitch headerEditProject.m_state).1).1 = true := by
  have hreq : (prepareIndexRequest incrementalDialogApplication headerEditFileSystem
      (projectAtRequestIndex incrementalDialogApplication headerEditSettings headerEditProject
        true) true (refreshSwitch headerEditProject.m_state).1).2 = some incrementalRequest := rfl
  rw [requestIndex_eq]
  simp only [hreq]
  rw [if_neg (fun h => incrementalRequest_filesToClean h.1)]

theorem incrementalDialog_refresh :
    (refresh incrementalDialogApplication headerEditSettings headerEditFileSystem
      headerEditProject true).1 = true := by
  rw [refresh_reaches incrementalDialogApplication headerEditSettings headerEditFileSystem
    headerEditProject true (by decide) rfl rfl rfl]
  exact (finishRefresh_true _ incrementalDialog_requestIndex).1

/-- C10, as the claim states it, fails when the indexing dialog is confirmed with the
full-refresh option switched off: the refresh was invoked with `forceRefresh = true` and
dispatches a task tree, yet the storage is never cleared, the tree has a `TaskCleanStorage`, and
the indexer commands are requested with `fullRefresh = false`. -/
theorem forced_refresh_without_clear :
    (refresh incrementalDialogApplication headerEditSettings headerEditFileSystem
        headerEditProject true).1 = true ∧
      (∃ tree,
        Event.taskDispatch tree ∈
          (refresh incrementalDialogApplication headerEditSettings headerEditFileSystem
            headerEditProject true).2.log ∧
        tree.containsCleanStorage = true) ∧
      (∀ event ∈
          (refresh incrementalDialogApplication headerEditSettings headerEditFileSystem
            headerEditProject true).2.log,
        event.isStorageClear = false) ∧
      Event.getIndexerCommands false ∈
        (refresh incrementalDialogApplication headerEditSettings headerEditFileSystem
          headerEditProject true).2.log := by
  obtain ⟨request, before, hreq, _, hquiet, _, _, hlog⟩ :=
    refresh_true_result incrementalDialogApplication headerEditSettings headerEditFileSystem
      headerEditProject true incrementalDialog_refresh
  have hrequest : request = incrementalRequest := by
    have hconcrete : (prepareIndexRequest incrementalDialogApplication headerEditFileSystem
        (projectAtRequestIndex incrementalDialogApplication headerEditSettings
          headerEditProject true) true (refreshSwitch headerEditProject.m_state).1).2
        = some incrementalRequest := rfl
    rw [hconcrete] at hreq
    exact (Option.some.inj hreq).symm
  subst hrequest
  have hfull : incrementalRequest.fullRefresh = false := rfl
  rw [hfull] at hlog
  simp only [Bool.false_eq_true, if_false, List.append_nil] at hlog
  refine ⟨incrementalDialog_refresh,
    ⟨buildTaskTree incrementalDialogApplication incrementalRequest.filesToClean
      (collectIndexerCommands headerEditSettings.sourceGroups false
        incrementalDialogApplication.cancelIndexingOnFatalErrors
        incrementalRequest.preprocessorOnly), ?_, ?_⟩, ?_, ?_⟩
  · rw [hlog]
    exact List.mem_append_right _ (List.mem_cons_self _ _)
  · rw [buildTaskTree_containsCleanStorage]
    exact decide_eq_true incrementalRequest_filesToClean
  · intro event hmem
    rw [hlog] at hmem
    simp only [List.mem_append, List.mem_cons, List.mem_singleton, List.mem_map,
      List.not_mem_nil, or_false] at hmem
    rcases hmem with (((h | h) | h) | ⟨_, _, h⟩) | h | h | h
    · simp [headerEditProject] at h
    · have hq := hquiet event h
      simp only [Event.isBuildIndexEffect, Bool.or_eq_false_iff] at hq
      exact hq.1.1.1
    · rw [h]; rfl
    · rw [← h]; rfl
    · rw [h]; rfl
    · rw [h]; rfl
    · rw [h]; rfl
  · rw [hlog]
    apply List.mem_append_left
    apply List.mem_append_right
    simp [headerEditSettings]

/-- C10, amended. A refresh invoked with `forceRefresh = true` that reaches `buildIndex`
with the effective `fullRefresh` flag set, which is always the case without GUI and with GUI
unless the indexing dialog is confirmed with the full-refresh option switched off, clears the
storage before the task tree is dispatched, dispatches a tree without `TaskCleanStorage`, and
requests the indexer commands of every source group with `fullRefresh = true`. -/
theorem forced_refresh_clears (app : Application) (settings : ProjectSettings)
    (fs : FileSystem) (project : Project) (request : IndexRequest)
    (htrue : (refresh app settings fs project true).1 = true)
    (hreq : (prepareIndexRequest app fs (projectAtRequestIndex app settings project true) true
      (refreshSwitch project.m_state).1).2 = some request)
    (hflag : app.hasGUI = false ∨ request.fullRefresh = true) :
    request.fullRefresh = true ∧
      ∃ before tree,
        (refresh app settings fs project true).2.log =
          project.log ++ before ++
            [Event.storageClear,
              Event.storageSetProjectSettingsText
                (refresh app settings fs project true).2.settingsFileText] ++
            settings.sourceGroups.map (fun _ => Event.getIndexerCommands true) ++
            [Event.taskDispatch tree, Event.proxySetSubject true,
              Event.hideUnknownProgressDialog] ∧
        (∀ event ∈ before, event.isBuildIndexEffect = false) ∧
        tree.containsCleanStorage = false := by
  have hfull : request.fullRefresh = true := by
    rcases hflag with hgui | hfull
    · obtain ⟨S, fullRefresh, preprocessorOnly, _, hrequest, _, hplain, _⟩ :=
        prepareIndexRequest_request app fs _ true _ request hreq
      rw [hrequest]
      simp only [applyFullRefresh]
      rw [(hplain hgui).1]
      rfl
    · exact hfull
  obtain ⟨request2, before, hreq2, _, hquiet, _, _, hlog⟩ :=
    refresh_true_result app settings fs project true htrue
  have hsame : request2 = request := by
    rw [hreq] at hreq2
    exact (Option.some.inj hreq2).symm
  subst hsame
  obtain ⟨S, fullRefresh, preprocessorOnly, _, hrequest, _⟩ :=
    prepareIndexRequest_request app fs _ true _ request2 hreq
  have hclean : request2.filesToClean = ∅ := by
    rw [hrequest] at hfull ⊢
    simp only [applyFullRefresh] at hfull ⊢
    rw [hfull]
    rfl
  rw [hfull] at hlog
  refine ⟨hfull, before,
    buildTaskTree app request2.filesToClean
      (collectIndexerCommands settings.sourceGroups true app.cancelIndexingOnFatalErrors
        request2.preprocessorOnly), ?_, hquiet, ?_⟩
  · rw [hlog]
    simp only [if_true, List.append_assoc, List.cons_append, List.nil_append,
      List.singleton_append]
  · rw [buildTaskTree_containsCleanStorage, hclean]
    rfl

/-- C10, amended, at a forced refresh of the header-edit project without GUI. -/
theorem forced_refresh_clears_witness :
    (refresh plainApplication headerEditSettings headerEditFileSystem headerEditProject
        true).1 = true ∧
      (prepareIndexRequest plainApplication headerEditFileSystem
        (projectAtRequestIndex plainApplication headerEditSettings headerEditProject true) true
        (refreshSwitch headerEditProject.m_state).1).2 = some forcedRequest ∧
      (plainApplication.hasGUI = false ∨ forcedRequest.fullRefresh = true) ∧
      forcedRequest.fullRefresh = true :=
  ⟨headerEdit_forced_refresh, rfl, Or.inl rfl,
    (forced_refresh_clears plainApplication headerEditSettings headerEditFileSystem
      headerEditProject forcedRequest headerEdit_forced_refresh rfl (Or.inl rfl)).1⟩

/-! ## The task tree of `Project::buildIndex`: claims C11, C12 and C17 -/

theorem indexingTasks_eq (app : Application) (indexerCommandList : List IndexerCommand) :
    ∃ queued : List IndexerCommand,
      queued.Perm indexerCommandList ∧
      indexingTasks app indexerCommandList =
        [ Task.TaskSetValue "source_file_count" (indexerCommandList.length : Int),
          Task.TaskSetValue "indexed_source_file_count" 0,
          Task.TaskSetValue "indexer_count" 0,
          Task.TaskParseWrapper
            (Task.TaskGroupParallel
              (List.replicate (min (indexerThreadCount app).toNat indexerCommandList.length)
                  (Task.TaskDecoratorRepeat RepeatCondition.CONDITION_WHILE_SUCCESS
                    TaskState.STATE_SUCCESS (Task.TaskBuildIndex queued))
                ++ [mergeTask, injectTask])),
          Task.TaskShowStatusDialog "Finish Indexing" "Saving\nRemaining Data",
          Task.TaskDecoratorRepeat RepeatCondition.CONDITION_WHILE_SUCCESS
            TaskState.STATE_SUCCESS Task.TaskInjectStorage ] := by
  unfold indexingTasks
  by_cases hthreads : indexerThreadCount app > 1
  · refine ⟨app.shuffle indexerCommandList, app.shuffle_perm indexerCommandList, ?_⟩
    simp only [hthreads, if_true, parallelIndexingTask_eq, repeatWhileSuccess,
      (app.shuffle_perm indexerCommandList).length_eq]
  · refine ⟨indexerCommandList, List.Perm.refl _, ?_⟩
    simp only [hthreads, if_false, parallelIndexingTask_eq, repeatWhileSuccess]

/-- C12. The number of indexer threads that `Project::buildIndex` uses is the configured
`indexerThreadCount` when that is positive, otherwise `idealThreadCount()` when that is positive,
otherwise 4; it is at least 1. -/
theorem indexerThreadCount_value (app : Application) :
    indexerThreadCount app =
        (if 0 < app.indexerThreadCount then app.indexerThreadCount
        else if 0 < app.idealThreadCount then app.idealThreadCount
        else 4) ∧
      1 ≤ indexerThreadCount app := by
  unfold indexerThreadCount
  by_cases hc : 0 < app.indexerThreadCount
  · have hnot : ¬ app.indexerThreadCount ≤ 0 := by omega
    simp only [hc, hnot, if_true, if_false]
    exact ⟨trivial, by omega⟩
  · have hle : app.indexerThreadCount ≤ 0 := by omega
    by_cases hi : 0 < app.idealThreadCount
    · have hnot : ¬ app.idealThreadCount ≤ 0 := by omega
      simp only [hc, hle, hi, hnot, if_true, if_false]
      exact ⟨trivial, by omega⟩
    · have hle2 : app.idealThreadCount ≤ 0 := by omega
      simp only [hc, hle, hi, hle2, if_true, if_false]
      exact ⟨trivial, by omega⟩

/-- C17. With `n ≥ 1` indexer commands and `t` indexer threads the parallel group under
`TaskParseWrapper` has `min(t, n) + 2` children: `min(t, n)` copies of
`Repeat(WhileSuccess, BuildIndex)`, then the merger sequence, then the injector sequence. -/
theorem parallel_group_children (app : Application) (filesToClean : Finset FilePath)
    (indexerCommandList : List IndexerCommand) (hcommands : 1 ≤ indexerCommandList.length) :
    ∃ (queued : List IndexerCommand) (before after children : List Task),
      queued.Perm indexerCommandList ∧
      buildTaskTree app filesToClean indexerCommandList =
        Task.TaskGroupSequence
          (before ++ [Task.TaskParseWrapper (Task.TaskGroupParallel children)] ++ after) ∧
      children =
        List.replicate (min (indexerThreadCount app).toNat indexerCommandList.length)
          (Task.TaskDecoratorRepeat RepeatCondition.CONDITION_WHILE_SUCCESS
            TaskState.STATE_SUCCESS (Task.TaskBuildIndex queued)) ++
        [ Task.TaskGroupSequence
            [ Task.TaskDecoratorRepeat RepeatCondition.CONDITION_WHILE_SUCCESS
                TaskState.STATE_SUCCESS
                (Task.TaskReturnSuccessWhile "indexer_count" SuccessCondition.CONDITION_EQUALS 0),
              Task.TaskDecoratorRepeat RepeatCondition.CONDITION_WHILE_SUCCESS
                TaskState.STATE_SUCCESS
                (Task.TaskGroupSelector
                  [ Task.TaskMergeStorages,
                    Task.TaskReturnSuccessWhile "indexer_count"
                      SuccessCondition.CONDITION_GREATER_THAN 0 ]) ],
          Task.TaskGroupSequence
            [ Task.TaskDecoratorRepeat RepeatCondition.CONDITION_WHILE_SUCCESS
                TaskState.STATE_SUCCESS
                (Task.TaskReturnSuccessWhile "indexer_count" SuccessCondition.CONDITION_EQUALS 0),
              Task.TaskDecoratorRepeat RepeatCondition.CONDITION_WHILE_SUCCESS
                TaskState.STATE_SUCCESS
                (Task.TaskGroupSequence
                  [ Task.TaskReturnSuccessWhile "indexer_count"
                      SuccessCondition.CONDITION_GREATER_THAN 0,
                    Task.TaskGroupSelector
                      [ Task.TaskInjectStorage,
                        Task.TaskReturnSuccessWhile "indexer_count"
                          SuccessCondition.CONDITION_GREATER_THAN 0 ] ]) ] ] ∧
      (children.length : Int) =
        min (indexerThreadCount app) (indexerCommandList.length : Int) + 2 := by
  obtain ⟨queued, hperm, htasks⟩ := indexingTasks_eq app indexerCommandList
  have hthreads : 1 ≤ indexerThreadCount app := by
    unfold indexerThreadCount
    dsimp only
    split
    · split <;> omega
    · omega
  refine ⟨queued,
    (if filesToClean.card ≠ 0 then [Task.TaskCleanStorage (toVector filesToClean)] else []) ++
      [ Task.TaskSetValue "source_file_count" (indexerCommandList.length : Int),
        Task.TaskSetValue "indexed_source_file_count" 0,
        Task.TaskSetValue "indexer_count" 0 ],
    [ Task.TaskShowStatusDialog "Finish Indexing" "Saving\nRemaining Data",
      Task.TaskDecoratorRepeat RepeatCondition.CONDITION_WHILE_SUCCESS
        TaskState.STATE_SUCCESS Task.TaskInjectStorage,
      Task.TaskFinishParsing ],
    _, hperm, ?_, rfl, ?_⟩
  · unfold buildTaskTree
    have hpos : indexerCommandList.length > 0 := by omega
    simp only [hpos, if_true, htasks, mergeTask, injectTask, repeatWhileSuccess,
      List.nil_append, List.append_assoc, List.cons_append]
  · simp only [List.length_append, List.length_replicate, List.length_cons, List.length_nil]
    omega

/-- C17 for the single command of the header-edit project. -/
theorem parallel_group_children_witness :
    1 ≤ (headerEditSourceGroup.indexerCommands false).length ∧
      ∃ (queued : List IndexerCommand) (before after children : List Task),
        queued.Perm (headerEditSourceGroup.indexerCommands false) ∧
        buildTaskTree plainApplication ∅ (headerEditSourceGroup.indexerCommands false) =
          Task.TaskGroupSequence
            (before ++ [Task.TaskParseWrapper (Task.TaskGroupParallel children)] ++ after) ∧
        (children.length : Int) =
          min (indexerThreadCount plainApplication)
            ((headerEditSourceGroup.indexerCommands false).length : Int) + 2 := by
  refine ⟨by decide, ?_⟩
  obtain ⟨queued, before, after, children, hperm, htree, _, hlength⟩ :=
    parallel_group_children plainApplication ∅ (headerEditSourceGroup.indexerCommands false)
      (by decide)
  exact ⟨queued, before, after, children, hperm, htree, hlength⟩

theorem buildIndex_dispatch (app : Application) (project : Project)
    (filesToClean : Finset FilePath) (fullRefresh preprocessorOnly : Bool) :
    ∃ earlier,
      (buildIndex app project filesToClean fullRefresh preprocessorOnly).log =
        earlier ++
          [Event.taskDispatch (buildTaskTree app filesToClean
            (collectIndexerCommands project.m_sourceGroups fullRefresh
              app.cancelIndexingOnFatalErrors preprocessorOnly))] := by
  rw [buildIndex_eq]
  exact ⟨_, rfl⟩

theorem buildTaskTree_eq (app : Application) (filesToClean : Finset FilePath)
    (indexerCommandList : List IndexerCommand) (hcommands : 1 ≤ indexerCommandList.length) :
    ∃ wrapped,
      buildTaskTree app filesToClean indexerCommandList =
        Task.TaskGroupSequence
          ((if filesToClean = ∅ then [] else [Task.TaskCleanStorage (toVector filesToClean)]) ++
            [ Task.TaskSetValue "source_file_count" (indexerCommandList.length : Int),
              Task.TaskSetValue "indexed_source_file_count" 0,
              Task.TaskSetValue "indexer_count" 0,
              Task.TaskParseWrapper wrapped,
              Task.TaskShowStatusDialog "Finish Indexing" "Saving\nRemaining Data",
              Task.TaskDecoratorRepeat RepeatCondition.CONDITION_WHILE_SUCCESS
                TaskState.STATE_SUCCESS Task.TaskInjectStorage,
              Task.TaskFinishParsing ]) := by
  obtain ⟨queued, _, htasks⟩ := indexingTasks_eq app indexerCommandList
  refine ⟨Task.TaskGroupParallel
    (List.replicate (min (indexerThreadCount app).toNat indexerCommandList.length)
        (Task.TaskDecoratorRepeat RepeatCondition.CONDITION_WHILE_SUCCESS
          TaskState.STATE_SUCCESS (Task.TaskBuildIndex queued))
      ++ [mergeTask, injectTask]), ?_⟩
  unfold buildTaskTree
  have hpos : indexerCommandList.length > 0 := by omega
  by_cases hclean : filesToClean = ∅
  · simp only [hclean, Finset.card_empty, ne_eq, not_true_eq_false, if_false, hpos, if_true,
      htasks, List.nil_append, List.append_assoc, List.cons_append]
  · have hcard : filesToClean.card ≠ 0 := fun h => hclean (Finset.card_eq_zero.1 h)
    simp only [hclean, hcard, ne_eq, not_false_eq_true, if_true, if_false, hpos, htasks,
      List.nil_append, List.append_assoc, List.cons_append]

/-- C11, as the claim states it, fails at the incremental refresh of the header-edit project:
`filesToClean` is not empty and there is one indexer command, and the root sequence starts with
the `TaskCleanStorage`, followed by `SetValue("source_file_count", 1)`; it is not a sequence that
starts with the three `SetValue` tasks and has the `TaskCleanStorage` in fourth place. -/
theorem root_task_clean_first :
    (prepareIndexRequest plainApplication headerEditFileSystem
        (projectAtRequestIndex plainApplication headerEditSettings headerEditProject false) false
        (refreshSwitch headerEditProject.m_state).1).2 = some incrementalRequest ∧
      incrementalRequest.filesToClean ≠ ∅ ∧
      (collectIndexerCommands headerEditProject.m_sourceGroups false
        plainApplication.cancelIndexingOnFatalErrors false).length = 1 ∧
      (∃ earlier rest,
        (buildIndex plainApplication headerEditProject incrementalRequest.filesToClean false
          false).log =
          earlier ++
            [Event.taskDispatch (Task.TaskGroupSequence
              (Task.TaskCleanStorage (toVector incrementalRequest.filesToClean) ::
                Task.TaskSetValue "source_file_count" 1 :: rest))]) ∧
      ¬ ∃ wrapped message,
        buildTaskTree plainApplication incrementalRequest.filesToClean
            (collectIndexerCommands headerEditProject.m_sourceGroups false
              plainApplication.cancelIndexingOnFatalErrors false) =
          Task.TaskGroupSequence
            [ Task.TaskSetValue "source_file_count" 1,
              Task.TaskSetValue "indexed_source_file_count" 0,
              Task.TaskSetValue "indexer_count" 0,
              Task.TaskCleanStorage (toVector incrementalRequest.filesToClean),
              Task.TaskParseWrapper wrapped,
              Task.TaskShowStatusDialog "Finish Indexing" message,
              Task.TaskDecoratorRepeat RepeatCondition.CONDITION_WHILE_SUCCESS
                TaskState.STATE_SUCCESS Task.TaskInjectStorage,
              Task.TaskFinishParsing ] := by
  have hne : incrementalRequest.filesToClean ≠ ∅ :=
    fun h => incrementalRequest_filesToClean (by rw [h]; rfl)
  have hlength : (collectIndexerCommands headerEditProject.m_sourceGroups false
      plainApplication.cancelIndexingOnFatalErrors false).length = 1 := by decide
  obtain ⟨wrapped, htree⟩ := buildTaskTree_eq plainApplication incrementalRequest.filesToClean
    (collectIndexerCommands headerEditProject.m_sourceGroups false
      plainApplication.cancelIndexingOnFatalErrors false) (by rw [hlength])
  rw [if_neg hne, hlength] at htree
  refine ⟨rfl, hne, hlength, ?_, ?_⟩
  · obtain ⟨earlier, hlog⟩ := buildIndex_dispatch plainApplication headerEditProject
      incrementalRequest.filesToClean false false
    exact ⟨earlier, _, by rw [hlog, htree]; rfl⟩
  · rintro ⟨wrapped2, message, hclaimed⟩
    rw [htree] at hclaimed
    simp at hclaimed

/-- C11, amended. With at least one indexer command the root task that
`Project::buildIndex` dispatches is a sequence whose children are, in this order: a
`TaskCleanStorage` that is present if and only if `filesToClean` is non-empty,
`SetValue("source_file_count", N)` with `N` the number of indexer commands,
`SetValue("indexed_source_file_count", 0)`, `SetValue("indexer_count", 0)`, `TaskParseWrapper`,
`TaskShowStatusDialog`, `Repeat(WhileSuccess, InjectStorage)`, and `TaskFinishParsing` last. -/
theorem buildIndex_root_task (app : Application) (project : Project)
    (filesToClean : Finset FilePath) (fullRefresh preprocessorOnly : Bool)
    (hcommands : 1 ≤ (collectIndexerCommands project.m_sourceGroups fullRefresh
      app.cancelIndexingOnFatalErrors preprocessorOnly).length) :
    ∃ earlier wrapped,
      (buildIndex app project filesToClean fullRefresh preprocessorOnly).log =
        earlier ++
          [Event.taskDispatch (Task.TaskGroupSequence
            ((if filesToClean = ∅ then []
              else [Task.TaskCleanStorage (toVector filesToClean)]) ++
              [ Task.TaskSetValue "source_file_count"
                  ((collectIndexerCommands project.m_sourceGroups fullRefresh
                    app.cancelIndexingOnFatalErrors preprocessorOnly).length : Int),
                Task.TaskSetValue "indexed_source_file_count" 0,
                Task.TaskSetValue "indexer_count" 0,
                Task.TaskParseWrapper wrapped,
                Task.TaskShowStatusDialog "Finish Indexing" "Saving\nRemaining Data",
                Task.TaskDecoratorRepeat RepeatCondition.CONDITION_WHILE_SUCCESS
                  TaskState.STATE_SUCCESS Task.TaskInjectStorage,
                Task.TaskFinishParsing ]))] := by
  obtain ⟨earlier, hlog⟩ := buildIndex_dispatch app project filesToClean fullRefresh
    preprocessorOnly
  obtain ⟨wrapped, htree⟩ := buildTaskTree_eq app filesToClean
    (collectIndexerCommands project.m_sourceGroups fullRefresh
      app.cancelIndexingOnFatalErrors preprocessorOnly) hcommands
  exact ⟨earlier, wrapped, by rw [hlog, htree]⟩

/-- C11, amended, at a full refresh of the header-edit project. -/
theorem buildIndex_root_task_witness :
    1 ≤ (collectIndexerCommands headerEditProject.m_sourceGroups true
        plainApplication.cancelIndexingOnFatalErrors false).length ∧
      ∃ earlier wrapped,
        (buildIndex plainApplication headerEditProject ∅ true false).log =
          earlier ++
            [Event.taskDispatch (Task.TaskGroupSequence
              ((if (∅ : Finset FilePath) = ∅ then []
                else [Task.TaskCleanStorage (toVector ∅)]) ++
                [ Task.TaskSetValue "source_file_count"
                    ((collectIndexerCommands headerEditProject.m_sourceGroups true
                      plainApplication.cancelIndexingOnFatalErrors false).length : Int),
                  Task.TaskSetValue "indexed_source_file_count" 0,
                  Task.TaskSetValue "indexer_count" 0,
                  Task.TaskParseWrapper wrapped,
                  Task.TaskShowStatusDialog "Finish Indexing" "Saving\nRemaining Data",
                  Task.TaskDecoratorRepeat RepeatCondition.CONDITION_WHILE_SUCCESS
                    TaskState.STATE_SUCCESS Task.TaskInjectStorage,
                  Task.TaskFinishParsing ]))] :=
  ⟨by decide, buildIndex_root_task plainApplication headerEditProject ∅ true false (by decide)⟩

/-! ## The refresh switch: claim C19 -/

/-- C19. The switch of `Project::refresh` requires a full reindex exactly for `EMPTY`,
`OUTDATED`, `OUTVERSIONED`, `SETTINGS_UPDATED` and `NEEDS_MIGRATION` (so not for `LOADED`), it
sets a non-empty question exactly for `OUTDATED`, `OUTVERSIONED`, `SETTINGS_UPDATED` and
`NEEDS_MIGRATION`, and for every state it yields the same pair `(needsFullRefresh, question)` as
the switch with an explicit `break` in the `NEEDS_MIGRATION` block. -/
theorem refreshSwitch_cases (state : ProjectStateType) :
    ((refreshSwitch state).1 = true ↔
        state = PROJECT_STATE_EMPTY ∨ state = PROJECT_STATE_OUTDATED ∨
          state = PROJECT_STATE_OUTVERSIONED ∨ state = PROJECT_STATE_SETTINGS_UPDATED ∨
          state = PROJECT_STATE_NEEDS_MIGRATION) ∧
      (refreshSwitch PROJECT_STATE_LOADED).1 = false ∧
      ((refreshSwitch state).2 ≠ "" ↔
        state = PROJECT_STATE_OUTDATED ∨ state = PROJECT_STATE_OUTVERSIONED ∨
          state = PROJECT_STATE_SETTINGS_UPDATED ∨ state = PROJECT_STATE_NEEDS_MIGRATION) ∧
      refreshSwitch state = refreshSwitchWithBreak state := by
  cases state <;>
    simp [refreshSwitch, refreshSwitchWithBreak, runSwitch, jumpToCase, jumpToDefault,
      runBlocks, refreshSwitchBlocks]

/-! ## After the dispatch: claim C13 -/

theorem specChanged_subset_persistedPaths (storage : PersistentStorage) (fs : FileSystem) :
    specChanged storage fs ⊆ persistedPaths storage := by
  rw [← specChanged_union_specUnchanged storage fs]
  exact Finset.subset_union_left

/-- C15, as the claim states it, fails when a path without file record is referenced both
by a changed and by an unchanged source: `ghost.h` has no persisted record, it is in
`getReferenced(changed)` and in `getReferenced(S \ changed)`, and it is not in `filesToClean`. -/
theorem unknown_referenced_path_not_cleaned :
    "ghost.h" ∉ persistedPaths ghostStorage ∧
      "ghost.h" ∈ ghostStorage.referenced (specChanged ghostStorage ghostFileSystem) ∧
      "ghost.h" ∈ ghostStorage.referenced
        (({"a.cpp", "b.cpp"} : Finset FilePath) \ specChanged ghostStorage ghostFileSystem) ∧
      "ghost.h" ∉
        (planIndex ghostStorage ghostFileSystem [] {"a.cpp", "b.cpp"} false).filesToClean := by
  have hc : specChanged ghostStorage ghostFileSystem = {"a.cpp"} := by decide
  refine ⟨by decide, ?_, ?_, ?_⟩
  · rw [hc]
    decide
  · rw [hc]
    decide
  · simp only [planIndex, Bool.not_false, if_true, incrementalAnalysis_filesToClean, hc]
    decide

/-- C15, amended. In an incremental refresh a path without persisted `FileInfo` record is
in `filesToClean` if and only if it is in `getReferencing(changed)`, or it is in
`getReferenced(changed)` and neither in `getReferenced(S \ changed)` nor in `S \ changed`; an
unknown path that the planner obtains from `getReferenced(S \ changed)` is not cleaned. -/
theorem unknown_path_filesToClean (storage : PersistentStorage) (fs : FileSystem)
    (sourceGroups : List SourceGroup) (S : Finset FilePath) (p : FilePath)
    (hunknown : p ∉ persistedPaths storage) :
    (p ∈ (planIndex storage fs sourceGroups S false).filesToClean ↔
        p ∈ storage.referencing (specChanged storage fs) ∨
          (p ∈ storage.referenced (specChanged storage fs) ∧
            p ∉ storage.referenced (S \ specChanged storage fs) ∧
            p ∉ S \ specChanged storage fs)) ∧
      (p ∈ storage.referenced (S \ specChanged storage fs) →
        p ∉ storage.referencing (specChanged storage fs) →
        p ∉ (planIndex storage fs sourceGroups S false).filesToClean) := by
  have hnot : p ∉ specChanged storage fs :=
    fun h => hunknown (specChanged_subset_persistedPaths storage fs h)
  have hiff : p ∈ (planIndex storage fs sourceGroups S false).filesToClean ↔
      p ∈ storage.referencing (specChanged storage fs) ∨
        (p ∈ storage.referenced (specChanged storage fs) ∧
          p ∉ storage.referenced (S \ specChanged storage fs) ∧
          p ∉ S \ specChanged storage fs) := by
    simp only [planIndex, Bool.not_false, if_true, incrementalAnalysis_filesToClean,
      Finset.mem_union, Finset.mem_filter]
    tauto
  refine ⟨hiff, ?_⟩
  intro hstatic hreferencing hclean
  rcases hiff.1 hclean with h | h
  · exact hreferencing h
  · exact h.2.1 hstatic

/-- C15, amended, for the path `ghost.h`, which the ghost database references without
holding a record of it. -/
theorem unknown_path_filesToClean_witness :
    "ghost.h" ∉ persistedPaths ghostStorage ∧
      ("ghost.h" ∈
          (planIndex ghostStorage ghostFileSystem [] {"a.cpp", "b.cpp"} false).filesToClean ↔
        "ghost.h" ∈ ghostStorage.referencing (specChanged ghostStorage ghostFileSystem) ∨
          ("ghost.h" ∈ ghostStorage.referenced (specChanged ghostStorage ghostFileSystem) ∧
            "ghost.h" ∉ ghostStorage.referenced
              (({"a.cpp", "b.cpp"} : Finset FilePath) \
                specChanged ghostStorage ghostFileSystem) ∧
            "ghost.h" ∉
              ({"a.cpp", "b.cpp"} : Finset FilePath) \
                specChanged ghostStorage ghostFileSystem)) :=
  ⟨by decide,
    (unknown_path_filesToClean ghostStorage ghostFileSystem [] {"a.cpp", "b.cpp"} "ghost.h"
      (by decide)).1⟩

/-! ## Publication of the storage by `Project::load`: claim C18 -/

theorem classifyProject_canLoad (needMigration : Bool) (storage : PersistentStorage)
    (settingsFileText : String) :
    (classifyProject needMigration storage settingsFileText).2 =
      (!storage.isEmpty && !storage.isIncompatible) := by
  unfold classifyProject
  cases needMigration <;> cases hempty : storage.isEmpty <;>
    cases hincompatible : storage.isIncompatible <;> simp
  split <;> rfl

theorem setDelimiterOfFront_log (project : Project) :
    ∃ events, (setDelimiterOfFront project).log = project.log ++ events ∧
      ∀ event ∈ events, event.isPublication = false := by
  unfold setDelimiterOfFront
  split
  · exact ⟨[], by simp, by simp⟩
  · exact ⟨[Event.setDelimiter _], rfl, by simp [Event.isPublication]⟩

theorem requestRefreshUnlessLoaded_log (project : Project) :
    ∃ events, (requestRefreshUnlessLoaded project).log = project.log ++ events ∧
      ∀ event ∈ events, event.isPublication = false := by
  unfold requestRefreshUnlessLoaded
  split
  · exact ⟨[Event.messageRefresh], rfl, by simp [Event.isPublication]⟩
  · exact ⟨[], by simp, by simp⟩

theorem publishStorage_log (canLoad : Bool) (project : Project) :
    ∃ events, (publishStorage canLoad project).log =
        project.log ++
          (if canLoad then
            [Event.storageSetMode StorageModeType.STORAGE_MODE_READ, Event.storageBuildCaches,
              Event.proxySetSubject true]
          else []) ++ events ∧
      ∀ event ∈ events, event.isPublication = false := by
  cases canLoad
  · exact ⟨[Event.messageStatus "Project not loaded" false false],
      by simp [publishStorage, Project.record], by simp [Event.isPublication]⟩
  · exact ⟨[Event.messageFinishedParsing, Event.messageStatus "Finished Loading" false false],
      by simp [publishStorage, Project.record], by simp [Event.isPublication]⟩

theorem load_eq (settings : ProjectSettings) (files : StorageFiles) (project : Project)
    (hreload : settings.reload = true) :
    load settings files project =
      requestRefreshUnlessLoaded
        (publishStorage
          (classifyProject settings.needMigration
            (files.openStorage (databasePath settings files) (bookmarkPath settings files))
            project.settingsFileText).2
          (setDelimiterOfFront (projectAtDelimiter settings files project))) := by
  unfold load projectAtDelimiter databasePath bookmarkPath
  simp only [hreload, Bool.not_true, Bool.false_eq_true, if_false, Project.record]

theorem load_log (settings : ProjectSettings) (files : StorageFiles) (project : Project)
    (hreload : settings.reload = true) :
    ∃ before after,
      (load settings files project).log =
        project.log ++ [Event.proxySetSubject false] ++ before ++
          (if (classifyProject settings.needMigration
              (files.openStorage (databasePath settings files) (bookmarkPath settings files))
              project.settingsFileText).2 then
            [Event.storageSetMode StorageModeType.STORAGE_MODE_READ, Event.storageBuildCaches,
              Event.proxySetSubject true]
          else []) ++ after ∧
      ∀ event ∈ before ++ after, event.isPublication = false := by
  rw [load_eq settings files project hreload]
  obtain ⟨events3, hlog3, hquiet3⟩ := requestRefreshUnlessLoaded_log
    (publishStorage
      (classifyProject settings.needMigration
        (files.openStorage (databasePath settings files) (bookmarkPath settings files))
        project.settingsFileText).2
      (setDelimiterOfFront (projectAtDelimiter settings files project)))
  obtain ⟨events2, hlog2, hquiet2⟩ := publishStorage_log
    (classifyProject settings.needMigration
      (files.openStorage (databasePath settings files) (bookmarkPath settings files))
      project.settingsFileText).2
    (setDelimiterOfFront (projectAtDelimiter settings files project))
  obtain ⟨events1, hlog1, hquiet1⟩ := setDelimiterOfFront_log
    (projectAtDelimiter settings files project)
  refine ⟨[Event.settingsReload, Event.storageSetup] ++ events1, events2 ++ events3, ?_, ?_⟩
  · rw [hlog3, hlog2, hlog1]
    simp only [projectAtDelimiter, List.append_assoc, List.cons_append, List.nil_append,
      List.singleton_append]
  · intro event hmem
    simp only [List.mem_append, List.mem_cons, List.mem_singleton, List.not_mem_nil,
      or_false] at hmem
    rcases hmem with ((h | h) | h) | h | h
    · rw [h]; rfl
    · rw [h]; rfl
    · exact hquiet1 event h
    · exact hquiet2 event h
    · exact hquiet3 event h

/-- C18. After a `load()` that read the settings file, `m_storage` is the storage opened
for the database path and the bookmark path, and that storage is put into read mode, its caches are
built and it is set as the subject of the access proxy if and only if it is neither empty nor
incompatible, whether or not the settings need migration or are outdated; otherwise none of the
three steps is made and the subject of the access proxy, which `load()` sets to null first, stays
null. -/
theorem load_publishes (settings : ProjectSettings) (files : StorageFiles) (project : Project)
    (hreload : settings.reload = true) :
    (load settings files project).m_storage =
        files.openStorage (databasePath settings files) (bookmarkPath settings files) ∧
      ((load settings files project).proxySubject = true ↔
        (files.openStorage (databasePath settings files)
            (bookmarkPath settings files)).isEmpty = false ∧
          (files.openStorage (databasePath settings files)
            (bookmarkPath settings files)).isIncompatible = false) ∧
      ∃ before after,
        (load settings files project).log =
          project.log ++ [Event.proxySetSubject false] ++ before ++
            (if (files.openStorage (databasePath settings files)
                  (bookmarkPath settings files)).isEmpty = false ∧
                (files.openStorage (databasePath settings files)
                  (bookmarkPath settings files)).isIncompatible = false then
              [Event.storageSetMode StorageModeType.STORAGE_MODE_READ,
                Event.storageBuildCaches, Event.proxySetSubject true]
            else []) ++ after ∧
        ∀ event ∈ before ++ after, event.isPublication = false := by
  obtain ⟨hstorage, _, hsubject⟩ := load_fields settings files project hreload
  obtain ⟨before, after, hlog, hquiet⟩ := load_log settings files project hreload
  rw [classifyProject_canLoad] at hsubject hlog
  have hcan : ∀ a b : Bool, ((!a && !b) = true) ↔ (a = false ∧ b = false) := by
    intro a b
    cases a <;> cases b <;> simp
  refine ⟨hstorage, ?_, before, after, ?_, hquiet⟩
  · rw [hsubject]
    exact hcan _ _
  · rw [hlog]
    by_cases hload : (!(files.openStorage (databasePath settings files)
        (bookmarkPath settings files)).isEmpty &&
        !(files.openStorage (databasePath settings files)
          (bookmarkPath settings files)).isIncompatible) = true
    · rw [if_pos hload, if_pos ((hcan _ _).1 hload)]
    · rw [if_neg hload, if_neg (fun h => hload ((hcan _ _).2 h))]

/-- C18 at the header-edit project, whose database is neither empty nor incompatible: the
opened database is published. -/
theorem load_publishes_witness :
    headerEditSettings.reload = true ∧
      (load headerEditSettings headerEditFiles unloadedProject).m_storage = headerEditStorage ∧
      (load headerEditSettings headerEditFiles unloadedProject).proxySubject = true :=
  ⟨rfl, (load_publishes headerEditSettings headerEditFiles unloadedProject rfl).1,
    (load_publishes headerEditSettings headerEditFiles unloadedProject rfl).2.1.2 ⟨rfl, rfl⟩⟩

/-! ## A required full refresh: claim C20 -/

theorem requestIndex_true_result (app : Application) (fs : FileSystem) (project : Project)
    (forceRefresh needsFullRefresh : Bool) (request : IndexRequest)
    (hreq : (prepareIndexRequest app fs project forceRefresh needsFullRefresh).2
      = some request)
    (hwork : ¬ (request.filesToClean.card = 0 ∧ request.filesToIndex.card = 0)) :
    (requestIndex app fs project forceRefresh needsFullRefresh).1 = true ∧
      (requestIndex app fs project forceRefresh needsFullRefresh).2.m_storage =
        (if request.fullRefresh then project.m_storage.clear
          else project.m_storage).setProjectSettingsText project.settingsFileText ∧
      ∃ before,
        (requestIndex app fs project forceRefresh needsFullRefresh).2.log =
          project.log ++ before ++
            (if request.fullRefresh then [Event.storageClear] else []) ++
            [Event.storageSetProjectSettingsText project.settingsFileText] ++
            project.m_sourceGroups.map (fun _ => Event.getIndexerCommands request.fullRefresh) ++
            [Event.taskDispatch (buildTaskTree app request.filesToClean
              (collectIndexerCommands project.m_sourceGroups request.fullRefresh
                app.cancelIndexingOnFatalErrors request.preprocessorOnly))] ∧
        ∀ event ∈ before, event.isBuildIndexEffect = false := by
  obtain ⟨events, hprep, hquiet⟩ := prepareIndexRequest_recordAll app fs project forceRefresh
    needsFullRefresh
  rw [requestIndex_eq]
  simp only [hreq]
  rw [if_neg hwork, buildIndex_eq, hprep]
  simp only [Project.record, Project.recordAll]
  refine ⟨trivial, trivial, events ++
    [Event.messageStatus
      (if request.fullRefresh then "Reindexing Project" else "Refreshing Project") false true,
      Event.messageClearErrorCount], ?_, ?_⟩
  · simp only [List.append_assoc, List.cons_append, List.nil_append, List.singleton_append]
  · intro event hmem
    simp only [List.mem_append, List.mem_cons, List.mem_singleton, List.not_mem_nil,
      or_false] at hmem
    rcases hmem with h | h | h
    · exact hquiet event h
    · rw [h]; rfl
    · rw [h]; rfl

theorem sourceless_prepareIndexRequest :
    (prepareIndexRequest incrementalDialogApplication headerEditFileSystem sourcelessProject
      false true).2 = some sourcelessRequest :=
  rfl

/-- C20, as the claim states it, fails for an outdated project all of whose sources were
removed: the state requires a full reindex and the indexing dialog is confirmed, the effective
`fullRefresh` flag is `true`, but `requestIndex` returns `false` at the nothing-to-refresh guard:
`buildIndex` is not called, no task tree is dispatched and the storage is not cleared. -/
theorem required_full_refresh_not_built :
    (refreshSwitch sourcelessProject.m_state).1 = true ∧
      (prepareIndexRequest incrementalDialogApplication headerEditFileSystem sourcelessProject
        false true).2 = some sourcelessRequest ∧
      sourcelessRequest.fullRefresh = true ∧
      (requestIndex incrementalDialogApplication headerEditFileSystem sourcelessProject false
        true).1 = false ∧
      (requestIndex incrementalDialogApplication headerEditFileSystem sourcelessProject false
        true).2.m_storage = sourcelessProject.m_storage ∧
      ∀ event ∈
          (requestIndex incrementalDialogApplication headerEditFileSystem sourcelessProject
            false true).2.log,
        event.isStorageClear = false ∧ event.isTaskDispatch = false := by
  have hfalse : (requestIndex incrementalDialogApplication headerEditFileSystem
      sourcelessProject false true).1 = false :=
    requestIndex_nothing incrementalDialogApplication headerEditFileSystem sourcelessProject
      false true sourcelessRequest sourceless_prepareIndexRequest rfl rfl
  obtain ⟨_, hstorage, events, hlog, hquiet⟩ := requestIndex_false_quiet
    incrementalDialogApplication headerEditFileSystem sourcelessProject false true hfalse
  refine ⟨by decide, sourceless_prepareIndexRequest, rfl, hfalse, hstorage, ?_⟩
  intro event hmem
  rw [hlog] at hmem
  rcases List.mem_append.1 hmem with h | h
  · simp [sourcelessProject] at h
  · have hq := hquiet event h
    simp only [Event.isBuildIndexEffect, Bool.or_eq_false_iff] at hq
    exact ⟨hq.1.1.1, hq.1.2⟩

/-- C20, amended. When the project state requires a full reindex, every request that passes
the indexing dialog, whatever the caller's `forceRefresh` and whatever the dialog answers for its
full-refresh option, has the effective `fullRefresh` flag set, an empty `filesToClean` and all
source files of the project as `filesToIndex`.  If the project has at least one source file,
`buildIndex` is called with that empty `filesToClean` and `fullRefresh = true`: the storage is
cleared before the settings snapshot is stored, the indexer commands are requested with
`fullRefresh = true`, and the tree is dispatched.  If it has none, `requestIndex` returns `false`
at the nothing-to-refresh guard: the storage is left as it is and nothing of `buildIndex` is
done. -/
theorem required_full_refresh (app : Application) (fs : FileSystem) (project : Project)
    (forceRefresh : Bool) (request : IndexRequest)
    (hreq : (prepareIndexRequest app fs project forceRefresh true).2 = some request) :
    gatherAllSourceFilePaths project.m_sourceGroups ∅ = some request.allSourceFilePaths ∧
      request.fullRefresh = true ∧ request.filesToClean = ∅ ∧
      request.filesToIndex = request.allSourceFilePaths ∧
      ((requestIndex app fs project forceRefresh true).1 = true ↔
        request.allSourceFilePaths ≠ ∅) ∧
      (requestIndex app fs project forceRefresh true).2.m_storage =
        (if request.allSourceFilePaths = ∅ then project.m_storage
        else project.m_storage.clear.setProjectSettingsText project.settingsFileText) ∧
      ∃ before,
        (requestIndex app fs project forceRefresh true).2.log =
          project.log ++ before ++
            (if request.allSourceFilePaths = ∅ then []
            else
              [Event.storageClear,
                Event.storageSetProjectSettingsText project.settingsFileText] ++
              project.m_sourceGroups.map (fun _ => Event.getIndexerCommands true) ++
              [Event.taskDispatch (buildTaskTree app ∅
                (collectIndexerCommands project.m_sourceGroups true
                  app.cancelIndexingOnFatalErrors request.preprocessorOnly))]) ∧
        ∀ event ∈ before, event.isBuildIndexEffect = false := by
  obtain ⟨S, fullRefresh, preprocessorOnly, hgather, hrequest, hneeds, _⟩ :=
    prepareIndexRequest_request app fs project forceRefresh true request hreq
  have hflag : fullRefresh = true := hneeds rfl
  subst hflag
  have hall : request.allSourceFilePaths = S := by rw [hrequest]; rfl
  have hfull : request.fullRefresh = true := by rw [hrequest]; rfl
  have hclean : request.filesToClean = ∅ := by rw [hrequest]; rfl
  have hindex : request.filesToIndex = request.allSourceFilePaths := by rw [hrequest]; rfl
  refine ⟨by rw [hall]; exact hgather, hfull, hclean, hindex, ?_⟩
  by_cases hsources : request.allSourceFilePaths = ∅
  · have hfalse : (requestIndex app fs project forceRefresh true).1 = false :=
      requestIndex_nothing app fs project forceRefresh true request hreq hclean
        (by rw [hindex, hsources])
    obtain ⟨_, hstorage, events, hlog, hquiet⟩ :=
      requestIndex_false_quiet app fs project forceRefresh true hfalse
    refine ⟨?_, ?_, events, ?_, hquiet⟩
    · rw [hfalse]
      exact ⟨fun h => absurd h (by decide), fun h => absurd hsources h⟩
    · rw [if_pos hsources, hstorage]
    · rw [if_pos hsources, hlog, List.append_nil]
  · have hwork : ¬ (request.filesToClean.card = 0 ∧ request.filesToIndex.card = 0) := by
      rintro ⟨_, hzero⟩
      rw [hindex] at hzero
      exact hsources (Finset.card_eq_zero.1 hzero)
    obtain ⟨htrue, hstorage, before, hlog, hquiet⟩ :=
      requestIndex_true_result app fs project forceRefresh true request hreq hwork
    rw [hfull] at hstorage hlog
    rw [hclean] at hlog
    refine ⟨?_, ?_, before, ?_, hquiet⟩
    · rw [htrue]
      exact ⟨fun _ => hsources, fun _ => rfl⟩
    · rw [if_neg hsources, hstorage]
      rfl
    · rw [if_neg hsources, hlog]
      simp only [if_true, List.append_assoc, List.cons_append, List.nil_append,
        List.singleton_append]

theorem emptyProject_dialog_request :
    (prepareIndexRequest incrementalDialogApplication headerEditFileSystem emptyProject false
      true).2 =
      some (applyFullRefresh {"a.cpp"}
        (planIndex emptyProject.m_storage headerEditFileSystem [headerEditSourceGroup]
          {"a.cpp"} true) true false) :=
  rfl

/-- C20, amended, at the first indexing of the project with the empty database, with the
indexing dialog confirmed and its full-refresh option switched off: the effective flag is set all
the same and the refresh is started. -/
theorem required_full_refresh_witness :
    (refreshSwitch emptyProject.m_state).1 = true ∧
      (indexingDialogAnswer incrementalDialogApplication headerEditFileSystem emptyProject false
        true {"a.cpp"}).startIndexing = true ∧
      (indexingDialogAnswer incrementalDialogApplication headerEditFileSystem emptyProject false
        true {"a.cpp"}).fullRefresh = false ∧
      (prepareIndexRequest incrementalDialogApplication headerEditFileSystem emptyProject false
        true).2 =
        some (applyFullRefresh {"a.cpp"}
          (planIndex emptyProject.m_storage headerEditFileSystem [headerEditSourceGroup]
            {"a.cpp"} true) true false) ∧
      (applyFullRefresh {"a.cpp"}
        (planIndex emptyProject.m_storage headerEditFileSystem [headerEditSourceGroup]
          {"a.cpp"} true) true false).fullRefresh = true ∧
      (requestIndex incrementalDialogApplication headerEditFileSystem emptyProject false
        true).1 = true :=
  ⟨by decide, rfl, rfl, emptyProject_dialog_request,
    (required_full_refresh incrementalDialogApplication headerEditFileSystem emptyProject false
      (applyFullRefresh {"a.cpp"}
        (planIndex emptyProject.m_storage headerEditFileSystem [headerEditSourceGroup]
          {"a.cpp"} true) true false) emptyProject_dialog_request).2.1,
    (required_full_refresh incrementalDialogApplication headerEditFileSystem emptyProject false
      (applyFullRefresh {"a.cpp"}
        (planIndex emptyProject.m_storage headerEditFileSystem [headerEditSourceGroup]
          {"a.cpp"} true) true false) emptyProject_dialog_request).2.2.2.2.1.2 (by decide)⟩

/-! ## Messages of unknown type: claim C21 -/

theorem handleIncomingMessage_unknown_eq (helper : NetworkProtocolHelper) (fs : FileSystem)
    (access : StorageAccess) (m_enabled : Bool) (message : String)
    (hunknown : helper.getMessageType message = MESSAGE_TYPE.UNKNOWN) :
    handleIncomingMessage helper fs access m_enabled message =
      if m_enabled = true then
        [IDEEvent.getMessageType message, IDEEvent.logError "Invalid message type"]
      else [] := by
  unfold handleIncomingMessage
  cases m_enabled <;> simp [hunknown]

/-- C21. A message that `getMessageType` classifies as `UNKNOWN` is treated as an error and
not parsed: the enabled controller classifies it and logs the error "Invalid message type" and
does nothing else; no parse function is applied to it, no handler is invoked and no message is
dispatched (a disabled controller does nothing at all). -/
theorem handleIncomingMessage_unknown (helper : NetworkProtocolHelper) (fs : FileSystem)
    (access : StorageAccess) (m_enabled : Bool) (message : String)
    (hunknown : helper.getMessageType message = MESSAGE_TYPE.UNKNOWN) :
    (m_enabled = true →
        handleIncomingMessage helper fs access m_enabled message =
          [IDEEvent.getMessageType message, IDEEvent.logError "Invalid message type"]) ∧
      (m_enabled = false → handleIncomingMessage helper fs access m_enabled message = []) ∧
      ∀ event ∈ handleIncomingMessage helper fs access m_enabled message,
        event.isParse = false ∧ event.isHandler = false ∧ event.isDispatch = false := by
  have heq := handleIncomingMessage_unknown_eq helper fs access m_enabled message hunknown
  refine ⟨?_, ?_, ?_⟩
  · intro henabled
    rw [heq, if_pos henabled]
  · intro hdisabled
    rw [heq, hdisabled]
    rfl
  · intro event hmem
    rw [heq] at hmem
    cases m_enabled
    · simp at hmem
    · simp only [if_true, List.mem_cons, List.mem_singleton, List.not_mem_nil, or_false] at hmem
      rcases hmem with h | h
      · rw [h]
        exact ⟨rfl, rfl, rfl⟩
      · rw [h]
        exact ⟨rfl, rfl, rfl⟩

/-- C21 for the message `"garbage"` and a helper that classifies it as `UNKNOWN`. -/
theorem handleIncomingMessage_unknown_witness :
    unknownHelper.getMessageType "garbage" = MESSAGE_TYPE.UNKNOWN ∧
      handleIncomingMessage unknownHelper headerEditFileSystem noStorageAccess true "garbage" =
        [IDEEvent.getMessageType "garbage", IDEEvent.logError "Invalid message type"] :=
  ⟨rfl,
    (handleIncomingMessage_unknown unknownHelper headerEditFileSystem noStorageAccess true
      "garbage" rfl).1 rfl⟩

/-! ## Rotation of the log file: claim C22 -/

theorem rotate_fileCount (logger : FileLogger) (fileChanged : Bool)
    (hcount : logger.m_currentLogFileCount < unsignedIntRange)
    (hmax : logger.m_maxLogFileCount < unsignedIntRange)
    (hreached : logger.m_maxLogLineCount ≤ logger.m_currentLogLineCount) :
    (logger.rotate fileChanged).1.m_currentLogFileCount =
      (if logger.m_maxLogFileCount ≤ logger.m_currentLogFileCount + 1 then 0
      else logger.m_currentLogFileCount + 1) := by
  unfold FileLogger.rotate
  have hge : logger.m_currentLogLineCount ≥ logger.m_maxLogLineCount := hreached
  rw [if_pos hge]
  dsimp only
  unfold unsignedIntRange at hcount hmax ⊢
  by_cases hwrap : logger.m_currentLogFileCount + 1 = 4294967296
  · have hmod : (logger.m_currentLogFileCount + 1) % 4294967296 = 0 := by omega
    have hle : logger.m_maxLogFileCount ≤ logger.m_currentLogFileCount + 1 := by omega
    rw [hmod, if_pos hle]
    split <;> rfl
  · have hmod : (logger.m_currentLogFileCount + 1) % 4294967296 =
        logger.m_currentLogFileCount + 1 := by omega
    rw [hmod]
    by_cases hle : logger.m_maxLogFileCount ≤ logger.m_currentLogFileCount + 1
    · have hge2 : logger.m_currentLogFileCount + 1 ≥ logger.m_maxLogFileCount := hle
      rw [if_pos hge2, if_pos hle]
    · have hge2 : ¬ logger.m_currentLogFileCount + 1 ≥ logger.m_maxLogFileCount := hle
      rw [if_neg hge2, if_neg hle]

theorem rotate_reached (logger : FileLogger) (fileChanged : Bool)
    (hreached : logger.m_maxLogLineCount ≤ logger.m_currentLogLineCount) :
    (logger.rotate fileChanged).2 = true ∧
      (logger.rotate fileChanged).1.m_currentLogLineCount = 0 ∧
      (logger.rotate fileChanged).1.m_currentLogFileName = logger.m_currentLogFileName ∧
      (logger.rotate fileChanged).1.m_logDirectory = logger.m_logDirectory ∧
      (logger.rotate fileChanged).1.m_logFileName = logger.m_logFileName ∧
      (logger.rotate fileChanged).1.m_maxLogLineCount = logger.m_maxLogLineCount ∧
      (logger.rotate fileChanged).1.m_maxLogFileCount = logger.m_maxLogFileCount := by
  unfold FileLogger.rotate
  have hge : logger.m_currentLogLineCount ≥ logger.m_maxLogLineCount := hreached
  rw [if_pos hge]
  dsimp only
  split <;> exact ⟨rfl, rfl, rfl, rfl, rfl, rfl, rfl⟩

theorem rotate_not_reached (logger : FileLogger) (fileChanged : Bool)
    (hbelow : logger.m_currentLogLineCount < logger.m_maxLogLineCount) :
    logger.rotate fileChanged = (logger, fileChanged) := by
  unfold FileLogger.rotate
  have hge : ¬ logger.m_currentLogLineCount ≥ logger.m_maxLogLineCount := by omega
  rw [if_neg hge]

/-- C22. `updateLogFileName` rotates only when `m_maxLogFileCount > 0`.  With
`m_maxLogFileCount = 0` it leaves both counters as they are, removes no file and sets the current
name to the base name followed by `.txt`.  With `m_maxLogFileCount > 0` the current name is the
base name, `_`, the decimal file counter and `.txt`; when the line counter has reached
`m_maxLogLineCount` the line counter is reset to 0, the file counter is incremented and wrapped to
0 on reaching `m_maxLogFileCount`, and the file of the new name is removed; when it has not,
the counters stay and no file is removed.  The counters are `unsigned int` values. -/
theorem updateLogFileName_rotation (concat : FilePath → FilePath → FilePath)
    (logger : FileLogger)
    (hcount : logger.m_currentLogFileCount < unsignedIntRange)
    (hmax : logger.m_maxLogFileCount < unsignedIntRange) :
    (logger.m_maxLogFileCount = 0 →
        (logger.updateLogFileName concat).1.m_currentLogLineCount
          = logger.m_currentLogLineCount ∧
        (logger.updateLogFileName concat).1.m_currentLogFileCount
          = logger.m_currentLogFileCount ∧
        (logger.updateLogFileName concat).2 = [] ∧
        (logger.updateLogFileName concat).1.m_currentLogFileName
          = logger.m_logFileName ++ ".txt") ∧
      (0 < logger.m_maxLogFileCount →
        (logger.updateLogFileName concat).1.m_currentLogFileName =
          logger.m_logFileName ++ "_" ++
            toString (logger.updateLogFileName concat).1.m_currentLogFileCount ++ ".txt" ∧
        (logger.m_maxLogLineCount ≤ logger.m_currentLogLineCount →
          (logger.updateLogFileName concat).1.m_currentLogLineCount = 0 ∧
          (logger.updateLogFileName concat).1.m_currentLogFileCount =
            (if logger.m_maxLogFileCount ≤ logger.m_currentLogFileCount + 1 then 0
            else logger.m_currentLogFileCount + 1) ∧
          (logger.updateLogFileName concat).2 =
            [FileEffect.remove (concat logger.m_logDirectory
              (logger.updateLogFileName concat).1.m_currentLogFileName)]) ∧
        (logger.m_currentLogLineCount < logger.m_maxLogLineCount →
          (logger.updateLogFileName concat).1.m_currentLogLineCount
            = logger.m_currentLogLineCount ∧
          (logger.updateLogFileName concat).1.m_currentLogFileCount
            = logger.m_currentLogFileCount ∧
          (logger.updateLogFileName concat).2 = [])) := by
  refine ⟨?_, ?_⟩
  · intro hzero
    unfold FileLogger.updateLogFileName
    have hnot : ¬ logger.m_maxLogFileCount > 0 := by omega
    simp only [hnot, if_false, Bool.false_eq_true]
    exact ⟨trivial, trivial, trivial, trivial⟩
  · intro hpositive
    have hgt : logger.m_maxLogFileCount > 0 := hpositive
    by_cases hreached : logger.m_maxLogLineCount ≤ logger.m_currentLogLineCount
    · have hbelow : ¬ logger.m_currentLogLineCount < logger.m_maxLogLineCount := by omega
      obtain ⟨hchanged, hline, hname, hdirectory, _, _, _⟩ := rotate_reached
        { logger with m_currentLogFileName := logger.m_logFileName ++ "_" } false hreached
      have hfile := rotate_fileCount
        { logger with m_currentLogFileName := logger.m_logFileName ++ "_" } false hcount hmax
        hreached
      unfold FileLogger.updateLogFileName
      simp only [hgt, if_true, hchanged, hline, hname, hdirectory, hfile]
      exact ⟨trivial, fun _ => ⟨trivial, trivial, trivial⟩, fun h => absurd h hbelow⟩
    · have hbelow : logger.m_currentLogLineCount < logger.m_maxLogLineCount := by omega
      have hrotate := rotate_not_reached
        { logger with m_currentLogFileName := logger.m_logFileName ++ "_" } false hbelow
      unfold FileLogger.updateLogFileName
      simp only [hgt, if_true, hrotate, Bool.false_eq_true, if_false]
      exact ⟨trivial, fun h => absurd h hreached, fun _ => ⟨trivial, trivial, trivial⟩⟩

/-- C22 at a logger whose third and last file is full: the update goes back to file 0. -/
theorem updateLogFileName_rotation_witness :
    rotatingLogger.m_currentLogFileCount < unsignedIntRange ∧
      rotatingLogger.m_maxLogFileCount < unsignedIntRange ∧
      0 < rotatingLogger.m_maxLogFileCount ∧
      rotatingLogger.m_maxLogLineCount ≤ rotatingLogger.m_currentLogLineCount ∧
      (rotatingLogger.updateLogFileName (fun directory file => directory ++ file)
        ).1.m_currentLogLineCount = 0 ∧
      (rotatingLogger.updateLogFileName (fun directory file => directory ++ file)
        ).1.m_currentLogFileCount =
        (if rotatingLogger.m_maxLogFileCount ≤ rotatingLogger.m_currentLogFileCount + 1 then 0
        else rotatingLogger.m_currentLogFileCount + 1) ∧
      (rotatingLogger.updateLogFileName (fun directory file => directory ++ file)).2 =
        [FileEffect.remove (rotatingLogger.m_logDirectory ++
          (rotatingLogger.updateLogFileName (fun directory file => directory ++ file)
            ).1.m_currentLogFileName)] :=
  ⟨by decide, by decide, by decide, by decide,
    ((updateLogFileName_rotation (fun directory file => directory ++ file) rotatingLogger
      (by decide) (by decide)).2 (by decide)).2.1 (by decide)⟩

theorem rotatingLogger_update :
    (rotatingLogger.updateLogFileName (fun directory file => directory ++ file)
        ).1.m_currentLogFileName = "log_0.txt" ∧
      (rotatingLogger.updateLogFileName (fun directory file => directory ++ file)).2 =
        [FileEffect.remove "user/log/log_0.txt"] := by
  decide

end Sourcetrail
